import Mathlib

/-!
Shallow embedding of the demo-dashboard data pipeline
(`app/services/demo_data.py`, `app/services/firestore.py`,
`app/services/bigquery.py`).

Randomness is modelled by an explicit draw stream `g : Nat → Int` together
with a running draw index `k : Nat`; `random.randint(lo, hi)` consumes one
draw and returns `lo + g k % (hi - lo + 1)`, which ranges over `[lo, hi]`.
`random.choice(pool)` is modelled by the chosen index into the pool
(`choice g n k`), so categorical string pools appear as their element index.
Timestamps are rationals (seconds since the epoch); Python `int(...)`
truncation toward zero is `pytrunc`.
-/

namespace DemoDash

/-- A stream of raw random draws; each call site consumes one draw. -/
abbrev Gen := Nat → Int

/-- `random.randint(lo, hi)` at draw index `k`: value in `[lo, hi]` (when
`lo ≤ hi`) plus the next draw index. -/
def randint (g : Gen) (lo hi : Int) (k : Nat) : Int × Nat :=
  (lo + g k % (hi - lo + 1), k + 1)

/-- `random.choice` from a pool of size `n`, modelled as the chosen index. -/
def choice (g : Gen) (n : Nat) (k : Nat) : Nat × Nat :=
  ((g k % (n : Int)).toNat, k + 1)

/-- Python `int(x)`: truncation toward zero. -/
def pytrunc (x : ℚ) : Int := if 0 ≤ x then x.floor else x.ceil

theorem randint_bounds (g : Gen) (lo hi : Int) (k : Nat) (h : lo ≤ hi) :
    lo ≤ (randint g lo hi k).1 ∧ (randint g lo hi k).1 ≤ hi := by
  have hpos : (0 : Int) < hi - lo + 1 := by omega
  have h0 : 0 ≤ g k % (hi - lo + 1) := Int.emod_nonneg _ (by omega)
  have h1 : g k % (hi - lo + 1) < hi - lo + 1 := Int.emod_lt_of_pos _ hpos
  constructor <;> simp only [randint] <;> omega

theorem pytrunc_nonneg {x : ℚ} (h : 0 ≤ x) : 0 ≤ pytrunc x := by
  simp only [pytrunc, if_pos h]
  exact Rat.le_floor.mpr (by exact_mod_cast h)

/-! ## Company events (`_build_company_events`, `_generate_company_events`) -/

inductive CEvType where
  | purchased
  | provisioned
deriving DecidableEq, Repr

structure CompanyEvent where
  timestamp : ℚ
  type : CEvType
  company : String
  purchased : Option Int
  provisioned : Option Int
  serial_number : Option Int
  box_name : Option (String × Nat)
deriving DecidableEq, Repr

/-- The `for device in range(initial_prov)` loop of `_build_company_events`:
one unit "provisioned" event per device, box index `device + 1`. -/
def initial_prov_events (g : Gen) (k : Nat) (company : String) (provDate : ℚ) :
    (count : Nat) → (device : Nat) → List CompanyEvent × Nat
  | 0, _ => ([], k)
  | n + 1, device =>
    let (serial, k1) := randint g 100000 2000000 k
    let ev : CompanyEvent :=
      { timestamp := provDate, type := .provisioned, company := company,
        purchased := none, provisioned := some 1,
        serial_number := some serial, box_name := some (company, device + 1) }
    let (rest, k2) := initial_prov_events g k1 company provDate n (device + 1)
    (ev :: rest, k2)

/-- The `for device in range(1, last_prov + 1)` loop: unit "provisioned"
events continuing the running `boxes` counter. -/
def later_prov_events (g : Gen) (k : Nat) (company : String) (provDate : ℚ) :
    (count : Nat) → (boxes : Nat) → List CompanyEvent × Nat × Nat
  | 0, boxes => ([], boxes, k)
  | n + 1, boxes =>
    let boxes' := boxes + 1
    let (serial, k1) := randint g 100000 2000000 k
    let ev : CompanyEvent :=
      { timestamp := provDate, type := .provisioned, company := company,
        purchased := none, provisioned := some 1,
        serial_number := some serial, box_name := some (company, boxes') }
    let (rest, boxes'', k2) := later_prov_events g k1 company provDate n boxes'
    (ev :: rest, boxes'', k2)

/-- The `for purchase in range(1, purchases)` loop of
`_build_company_events`: purchase events at interpolated fractions of the
registration-to-now window, each followed by its provisioning events. -/
def purchase_loop (g : Gen) (k : Nat) (company : String) (reg now : ℚ)
    (purchases : Int) : (i : Nat) → (remaining : Nat) → (boxes : Nat) →
    List CompanyEvent × Nat
  | _, 0, _ => ([], k)
  | i, n + 1, boxes =>
    let (purchasedQ, k1) := randint g 5 15 k
    let fraction : ℚ := (i : ℚ) / (purchases : ℚ)
    let lastPurchaseDate := reg + (now - reg) * fraction
    let purEv : CompanyEvent :=
      { timestamp := lastPurchaseDate, type := .purchased, company := company,
        purchased := some purchasedQ, provisioned := none,
        serial_number := none, box_name := none }
    let (delay, k2) := randint g 2 14 k1
    let provDate := lastPurchaseDate + 86400 * (delay : ℚ)
    let (lastProv, k3) := randint g (Int.fdiv purchasedQ 2) purchasedQ k2
    let (provEvs, boxes', k4) :=
      later_prov_events g k3 company provDate lastProv.toNat boxes
    let (rest, k5) := purchase_loop g k4 company reg now purchases (i + 1) n boxes'
    (purEv :: provEvs ++ rest, k5)

/-- `_build_company_events(company_name, reg_date)` with the clock frozen at
`now`. -/
def build_company_events (g : Gen) (k : Nat) (company : String)
    (reg now : ℚ) : List CompanyEvent × Nat :=
  let (initialPurchase, k1) := randint g 1 15 k
  let purEv : CompanyEvent :=
    { timestamp := reg, type := .purchased, company := company,
      purchased := some initialPurchase, provisioned := none,
      serial_number := none, box_name := none }
  let (provDelay, k2) := randint g 2 14 k1
  let provDate := reg + 86400 * (provDelay : ℚ)
  let (initialProv, k3) := randint g 1 initialPurchase k2
  let (initEvs, k4) :=
    initial_prov_events g k3 company provDate initialProv.toNat 0
  let seconds := now - reg
  let daysSinceReg := pytrunc (seconds / 86400)
  let monthsSinceReg := pytrunc ((daysSinceReg : ℚ) / 30) + 1
  let (mult, k5) := randint g 1 2 k4
  let purchases := mult * monthsSinceReg
  let (loopEvs, k6) :=
    purchase_loop g k5 company reg now purchases 1 (purchases - 1).toNat
      initialProv.toNat
  (purEv :: initEvs ++ loopEvs, k6)

/-- `_generate_company_events(companies)`: concatenate per-company builds,
threading the draw index. -/
def generate_company_events (g : Gen) (k : Nat) (now : ℚ) :
    (companies : List (String × ℚ)) → List CompanyEvent × Nat
  | [] => ([], k)
  | (name, reg) :: rest =>
    let (evs, k1) := build_company_events g k name reg now
    let (evs', k2) := generate_company_events g k1 now rest
    (evs ++ evs', k2)

/-! ## Aggregation (`_generate_company_updates`) -/

/-- Sum of `purchased` quantities of the "purchased" events of company `c`
(the `purchases` dict of `_generate_company_updates`). -/
def purchasedTotal (events : List CompanyEvent) (c : String) : Int :=
  ((events.filter fun e => decide (e.type = .purchased ∧ e.company = c)).map
    fun e => e.purchased.getD 0).sum

/-- Sum of `provisioned` quantities of the "provisioned" events of company
`c` (the `provisions` dict of `_generate_company_updates`). -/
def provisionedTotal (events : List CompanyEvent) (c : String) : Int :=
  ((events.filter fun e => decide (e.type = .provisioned ∧ e.company = c)).map
    fun e => e.provisioned.getD 0).sum

/-- The key set `set(purchases) | set(provisions)`: every event is either
"purchased" or "provisioned", so this is the set of companies with at least
one event (listed in first-appearance order; Python set order is
unspecified and no claim depends on it). -/
def companiesOf (events : List CompanyEvent) : List String :=
  (events.map (·.company)).dedup

/-- `_generate_company_updates(company_events)`: one
`(company, purchased_total, provisioned_total)` triple per active company. -/
def generate_company_updates (events : List CompanyEvent) :
    List (String × Int × Int) :=
  (companiesOf events).map fun c =>
    (c, purchasedTotal events c, provisionedTotal events c)

/-! ## Firestore document model (`app/services/firestore.py`)

A document is an association list from field names to values; `dget` reads
the first binding, and Firestore's `reference.update(update_fields)` (which
overwrites exactly the given fields and preserves the rest) is `mergeDoc`,
which prepends the patch bindings. -/

inductive FVal where
  | intV (n : Int)
  | strV (s : String)
  | timeV (t : ℚ)
deriving DecidableEq, Repr

abbrev Doc := List (String × FVal)

/-- Field lookup in a document (first binding wins). -/
def dget (d : Doc) (f : String) : Option FVal := List.lookup f d

/-- Firestore `update`: fields in `patch` are overwritten, all other fields
keep their previous value. -/
def mergeDoc (d : Doc) (patch : List (String × FVal)) : Doc := patch ++ d

/-- `update_document_by_field`: the `.where(field, "==", value).limit(1)`
query yields the first matching document, which is updated in place; with
no match the service raises (`Except.error`). -/
def update_document_by_field (field : String) (value : FVal)
    (patch : List (String × FVal)) : (docs : List Doc) → Except String (List Doc)
  | [] => .error "No document found"
  | d :: rest =>
    if dget d field = some value then .ok (mergeDoc d patch :: rest)
    else (update_document_by_field field value patch rest).map (d :: ·)

/-- `_update_company_docs_with_purchases_and_provisions`: patch each updated
company's `boxes_bought` / `boxes_prov` by name; a failed update is logged
and skipped (the loop continues and the count is not incremented). -/
def update_company_docs (docs : List Doc) :
    (updates : List (String × Int × Int)) → List Doc × Nat
  | [] => (docs, 0)
  | (c, pur, prov) :: rest =>
    let patch := [("boxes_bought", FVal.intV pur), ("boxes_prov", FVal.intV prov)]
    match update_document_by_field "name" (FVal.strV c) patch docs with
    | .ok docs' =>
      let (docs'', n) := update_company_docs docs' rest
      (docs'', n + 1)
    | .error _ => update_company_docs docs rest

/-- A fresh company document as written by `_create_company_docs`. -/
def mkCompanyDoc (name : String) (earliestReg : ℚ) : Doc :=
  [("name", FVal.strV name), ("earliest_reg", FVal.timeV earliestReg),
   ("boxes_bought", FVal.intV 0), ("boxes_prov", FVal.intV 0)]

/-- First document whose `name` field is `c`. -/
def docForName (docs : List Doc) (c : String) : Option Doc :=
  docs.find? fun d => decide (dget d "name" = some (FVal.strV c))

/-- Read field `f` of the first document named `c`. -/
def docLookup (docs : List Doc) (c : String) (f : String) : Option FVal :=
  (docForName docs c).bind fun d => dget d f

/-! ## User events (`_generate_ticket_events`, `_generate_call_events`)

Categorical config pools (`drivers`, `operating_systems`, comment pools)
are represented by the chosen index; a comment additionally records which
pool it came from (`true` = good_comments). The session-id string
`str((now - seed).total_seconds()) + "." + str(call)` is represented by its
two components `(now - seedEpoch, call)`. -/

/-- `datetime(1980, 1, 1, 1, 0)` in epoch seconds. -/
def seedEpoch : ℚ := 315536400

inductive UEvType where
  | register
  | supportTicket
  | call
  | load
  | rating
  | comment
  | dialin
deriving DecidableEq, Repr

structure UserEvent where
  timestamp : ℚ
  type : UEvType
  user : String
  company : String
  call_duration : Option Int
  call_type : Option Nat
  call_num_users : Option Int
  call_os : Option Nat
  session_id : Option (ℚ × Nat)
  rating : Option Int
  comment : Option (Bool × Nat)
  dialin_duration : Option Int
  ticket_number : Option (String × Nat)
  ticket_driver : Option Nat
deriving DecidableEq, Repr

/-- A user event with every optional field unset. -/
def blankEvent (ts : ℚ) (ty : UEvType) (email company : String) : UserEvent :=
  { timestamp := ts, type := ty, user := email, company := company,
    call_duration := none, call_type := none, call_num_users := none,
    call_os := none, session_id := none, rating := none, comment := none,
    dialin_duration := none, ticket_number := none, ticket_driver := none }

/-- `_generate_registration_events` for one user. -/
def registration_event (email company : String) (reg : ℚ) : UserEvent :=
  blankEvent reg .register email company

/-- The `for ticket in range(tickets)` loop of `_generate_ticket_events`. -/
def ticket_loop (g : Gen) (k : Nat) (email company : String)
    (numDrivers : Nat) (reg seconds : ℚ) (tickets : Int) :
    (i : Nat) → (remaining : Nat) → List UserEvent × Nat
  | _, 0 => ([], k)
  | i, n + 1 =>
    let eventDate :=
      reg + ((pytrunc (seconds / (tickets : ℚ) / (11 / 10 : ℚ)) * (i : Int) : Int) : ℚ)
    let (driver, k1) := choice g numDrivers k
    let ev : UserEvent :=
      { blankEvent eventDate .supportTicket email company with
        ticket_number := some (email, i), ticket_driver := some driver }
    let (rest, k2) := ticket_loop g k1 email company numDrivers reg seconds tickets (i + 1) n
    (ev :: rest, k2)

/-- `_generate_ticket_events` for one user, clock frozen at `now`. -/
def generate_ticket_events_user (g : Gen) (k : Nat) (email company : String)
    (numDrivers : Nat) (reg now : ℚ) : List UserEvent × Nat :=
  let seconds := now - reg
  let daysSinceReg := pytrunc (seconds / 86400)
  let (troubley, k1) := randint g 0 3 k
  let tickets := pytrunc ((daysSinceReg : ℚ) / ((4 - troubley : Int) : ℚ) / 2)
  ticket_loop g k1 email company numDrivers reg seconds tickets 0 tickets.toNat

/-- The per-call random draws of `_generate_call_events`, in source order. -/
structure CallDraws where
  callRating : Option Int
  callComment : Option (Bool × Nat)
  callLength : Int
  dialinLength : Option Int
  callType : Nat
  callUsers : Int
  eventDate : ℚ
deriving DecidableEq, Repr

/-- Consume one call iteration's draws (source order: happy score, rating
score [+ rating value], comment score [+ comment choice], length, dialin
score, type score, size score, time jitter). -/
def call_draws (g : Gen) (k : Nat) (numGood numBad : Nat) (reg now : ℚ)
    (seconds : ℚ) (calls : Int) (happy ratey commenty chatty : Int)
    (callNum : Nat) : CallDraws × Nat :=
  let (callHappyScore, k1) := randint g 0 99 k
  let callHappy := happy * 25 ≤ callHappyScore
  let (callRatingScore, k2) := randint g 0 99 k1
  let (callRating, k3) :=
    if callRatingScore ≤ ratey * 40 then
      if callHappy then
        let (r, k') := randint g 4 5 k2
        ((some r : Option Int), k')
      else
        let (r, k') := randint g 1 3 k2
        ((some r : Option Int), k')
    else ((none : Option Int), k2)
  let (callCommentScore, k4) := randint g 0 99 k3
  let (callComment, k5) :=
    if (callCommentScore : ℚ) ≤ (commenty * 33 * ratey : Int) / (3 : ℚ) then
      match callRating with
      | some r =>
        if r ≠ 0 ∧ 3 ≤ r then
          let (i, k') := choice g numGood k4
          ((some (true, i) : Option (Bool × Nat)), k')
        else
          let (i, k') := choice g numBad k4
          ((some (false, i) : Option (Bool × Nat)), k')
      | none =>
        let (i, k') := choice g numBad k4
        ((some (false, i) : Option (Bool × Nat)), k')
    else ((none : Option (Bool × Nat)), k4)
  let (lenDraw, k6) := randint g 5 20 k5
  let callLength := chatty * lenDraw
  let (dialinScore, k7) := randint g 0 99 k6
  let dialinLength : Option Int := if dialinScore < 40 then some callLength else none
  let (typeScore, k8) := randint g 0 99 k7
  let callType : Nat :=
    if typeScore < 35 then 0 else if typeScore < 70 then 1
    else if typeScore < 90 then 2 else 3
  let (sizeScore, k9) := randint g 0 99 k8
  let callUsers : Int :=
    if sizeScore < 35 then 2 else if sizeScore < 70 then 3
    else if sizeScore < 95 then 4 else sizeScore - 90 + 5
  let (jitter, k10) := randint g (-1000) 1000 k9
  let shift := pytrunc (seconds / (calls : ℚ) + (jitter : ℚ)) * (callNum : Int)
  let eventDate0 := reg + (shift : ℚ)
  let eventDate := if now < eventDate0 then now else eventDate0
  ({ callRating := callRating, callComment := callComment,
     callLength := callLength, dialinLength := dialinLength,
     callType := callType, callUsers := callUsers, eventDate := eventDate }, k10)

/-- Events appended by one call iteration: the call event, its load event
one minute earlier, then rating/comment/dialin events when the draws
produced truthy values (Python truthiness: `None` and `0` are falsy). -/
def call_group (email company : String) (osIdx : Nat) (now : ℚ)
    (callIdx : Nat) (d : CallDraws) : List UserEvent :=
  let sessionId : ℚ × Nat := (now - seedEpoch, callIdx)
  let callEv : UserEvent :=
    { blankEvent d.eventDate .call email company with
      call_duration := some d.callLength, call_type := some d.callType,
      call_num_users := some d.callUsers, call_os := some osIdx,
      session_id := some sessionId }
  let loadEv : UserEvent := blankEvent (d.eventDate - 60) .load email company
  let ratingEvs : List UserEvent :=
    match d.callRating with
    | some r =>
      if r ≠ 0 then
        [{ blankEvent d.eventDate .rating email company with
           rating := some r, session_id := some sessionId }]
      else []
    | none => []
  let commentEvs : List UserEvent :=
    match d.callComment with
    | some c =>
      [{ blankEvent d.eventDate .comment email company with
         comment := some c, session_id := some sessionId }]
    | none => []
  let dialinEvs : List UserEvent :=
    match d.dialinLength with
    | some l =>
      if l ≠ 0 then
        [{ blankEvent d.eventDate .dialin email company with
           call_duration := some l }]
      else []
    | none => []
  callEv :: loadEv :: (ratingEvs ++ commentEvs ++ dialinEvs)

/-- The `for call in range(calls)` loop of `_generate_call_events`
(`callIdx` is `call`; `call_num = call + 1`). -/
def call_loop (g : Gen) (k : Nat) (numGood numBad : Nat)
    (email company : String) (osIdx : Nat) (reg now seconds : ℚ)
    (calls : Int) (happy ratey commenty chatty : Int) :
    (callIdx : Nat) → (remaining : Nat) → List UserEvent × Nat
  | _, 0 => ([], k)
  | callIdx, n + 1 =>
    let (d, k1) := call_draws g k numGood numBad reg now seconds calls
      happy ratey commenty chatty (callIdx + 1)
    let grp := call_group email company osIdx now callIdx d
    let (rest, k2) := call_loop g k1 numGood numBad email company osIdx reg
      now seconds calls happy ratey commenty chatty (callIdx + 1) n
    (grp ++ rest, k2)

/-- `_generate_call_events` for one user, clock frozen at `now`. -/
def generate_call_events_user (g : Gen) (k : Nat) (email company : String)
    (numOs numGood numBad : Nat) (reg now : ℚ) : List UserEvent × Nat :=
  let (osIdx, k1) := choice g numOs k
  let seconds := now - reg
  let daysSinceReg := pytrunc (seconds / 86400)
  let (freq, k2) := randint g 1 10 k1
  let calls := pytrunc ((daysSinceReg : ℚ) / ((11 - freq : Int) : ℚ) * 10)
  let (happy, k3) := randint g 0 2 k2
  let (ratey, k4) := randint g 0 2 k3
  let (commenty, k5) := randint g 0 2 k4
  let (chatty, k6) := randint g 0 4 k5
  call_loop g k6 numGood numBad email company osIdx reg now seconds calls
    happy ratey commenty chatty 0 calls.toNat

/-! ## BigQuery ingest (`app/services/bigquery.py`, `write_rows_to_table`)

The underlying `insert_rows_json` call is abstracted as an oracle mapping
the global call count to an outcome; `transientNotFound` is an error whose
text contains "not found" (the retryable case), `otherError` any other
failure. Sleeps (`time.sleep(delay)`) are recorded as the list of delays. -/

inductive InsertOutcome where
  | success
  | transientNotFound
  | otherError
deriving DecidableEq, Repr

structure IngestState where
  calls : Nat
  sleeps : List Int
  totalInserted : Nat
deriving DecidableEq, Repr

def max_retries : Nat := 3

def base_delay : Int := 1

/-- The `for retry_attempt in range(max_retries)` loop for one chunk;
`remaining = max_retries - retry_attempt`. A transient "not found" failure
with `retry_attempt < max_retries - 1` sleeps `base_delay * 2 ^ attempt`
and retries; any other failure, or a transient one on the last attempt, is
re-raised (the error carries the observable state for diagnostics). -/
def attempt_chunk (oracle : Nat → InsertOutcome) (batchLen : Nat) :
    (remaining : Nat) → IngestState → Except (String × IngestState) IngestState
  | 0, st => .error ("retry loop exhausted", st)
  | r + 1, st =>
    let attempt := max_retries - (r + 1)
    match oracle st.calls with
    | .success =>
      .ok { st with calls := st.calls + 1,
                    totalInserted := st.totalInserted + batchLen }
    | .transientNotFound =>
      if 0 < r then
        attempt_chunk oracle batchLen r
          { st with calls := st.calls + 1,
                    sleeps := st.sleeps ++ [base_delay * 2 ^ attempt] }
      else .error ("not found", { st with calls := st.calls + 1 })
    | .otherError => .error ("other error", { st with calls := st.calls + 1 })

/-- `rows[i : i + batch_size]` chunking of the outer
`for i in range(0, len(rows), batch_size)` loop. -/
def chunkList : (n : Nat) → (l : List α) → List (List α)
  | _, [] => []
  | 0, _ :: _ => []
  | n + 1, x :: xs =>
    (x :: xs).take (n + 1) :: chunkList (n + 1) ((x :: xs).drop (n + 1))
termination_by _ l => l.length
decreasing_by
  simp only [List.length_drop, List.length_cons]
  omega

/-- Insert each chunk in order, stopping at the first fatal error. -/
def insert_chunks (oracle : Nat → InsertOutcome) :
    (chunks : List (List α)) → IngestState →
    Except (String × IngestState) IngestState
  | [], st => .ok st
  | c :: cs, st =>
    match attempt_chunk oracle c.length max_retries st with
    | .ok st' => insert_chunks oracle cs st'
    | .error e => .error e

/-- `write_rows_to_table(table_name, rows)`: early-out on empty rows, else
chunk by 10,000 and insert with per-chunk retry. On success the state's
`totalInserted` is the reported `rows_inserted`. -/
def write_rows_to_table (oracle : Nat → InsertOutcome) (rows : List α) :
    Except (String × IngestState) IngestState :=
  if rows.isEmpty then .ok ⟨0, [], 0⟩
  else insert_chunks oracle (chunkList 10000 rows) ⟨0, [], 0⟩

/-! ## Collection deletion and batch write (`firestore.py`)

Documents carry an opaque reference id (the `Nat` component). Net effect of
`delete_all_documents`: the reference stream is fetched with
`.select([]).limit(batch_size * 4)`, the fetched references are grouped
into batches of `batch_size` committed by the worker pool, and every
fetched reference is deleted; `deleted_count` accumulates the batch sizes. -/

abbrev RefDoc := Nat × Doc

/-- `delete_all_documents(collection_name, batch_size=500)`: returns the
deleted count and the surviving documents. Only the first
`batch_size * 4` references are ever fetched (the `.limit(page_size)` on
the stream). -/
def delete_all_documents (coll : List RefDoc) (batchSize : Nat) :
    Nat × List RefDoc :=
  let pageSize := batchSize * 4
  let fetchedIds := (coll.take pageSize).map (·.1)
  let batches := chunkList batchSize fetchedIds
  let deletedCount := (batches.map List.length).sum
  (deletedCount, coll.filter fun d => decide (d.1 ∉ fetchedIds))

/-- `batch_write(collection, documents)`: no-op on an empty document list,
else one batch of `set` calls on fresh references. -/
def batch_write (coll : List RefDoc) (docs : List Doc) (nextId : Nat) :
    List RefDoc :=
  if docs.isEmpty then coll
  else coll ++ docs.enum.map fun p => (nextId + p.1, p.2)

/-- Modelled from the spec: `CollectionReplacer.replace(collection,
new_records)`. The repository has no single `replace` function; the
pipeline stages (`_create_user_collection` and friends) compose
`delete_all_documents` followed by `batch_write`, which is what this
definition does. -/
def replace (coll : List RefDoc) (docs : List Doc) (nextId : Nat) :
    Nat × List RefDoc :=
  let (deleted, coll') := delete_all_documents coll 500
  (deleted, batch_write coll' docs nextId)

/-! ## User-collection stage (`_create_user_collection`, `_get_users`)

The BigQuery seed fetch is abstracted as an `Except` outcome. The stage
first deletes the existing `users` collection, then fetches seed users,
raises the fatal source-data error when none are available, and only then
builds and batch-writes the user documents. -/

structure SeedUser where
  email : String
  company : String
  offset : Int
deriving DecidableEq, Repr

structure UserDoc where
  email : String
  company : String
  reg_date : ℚ
deriving DecidableEq, Repr

/-- `_create_user_docs`: `reg_date = now - offset days - U[0, maxRegDelay]
minutes`, dropping the `offset` field. -/
def create_user_docs (g : Gen) (k : Nat) (now : ℚ) (maxRegDelay : Int) :
    (users : List SeedUser) → List UserDoc × Nat
  | [] => ([], k)
  | u :: rest =>
    let (jitter, k1) := randint g 0 maxRegDelay k
    let regDate := now - (u.offset : ℚ) * 86400 - (jitter : ℚ) * 60
    let (docs, k2) := create_user_docs g k1 now maxRegDelay rest
    ({ email := u.email, company := u.company, reg_date := regDate } :: docs, k2)

def userDocToDoc (u : UserDoc) : Doc :=
  [("email", FVal.strV u.email), ("company", FVal.strV u.company),
   ("reg_date", FVal.timeV u.reg_date)]

/-- The fatal source-data error message raised when no seed users exist. -/
def noUsersMsg : String :=
  "No user records found in BigQuery database. Cannot generate demo data without source user data."

/-- `_create_user_collection(user_limit)`: returns the stage result and the
final state of the `users` collection. Deletion of the existing documents
happens before the seed fetch and its empty check. -/
def create_user_collection (g : Gen) (k : Nat) (now : ℚ) (maxRegDelay : Int)
    (usersColl : List RefDoc) (fetched : Except String (List SeedUser))
    (nextId : Nat) : Except String (List UserDoc) × List RefDoc :=
  let (_deletedCount, coll1) := delete_all_documents usersColl 500
  match fetched with
  | .error e =>
    (.error ("BigQuery service failed to fetch user data: " ++ e), coll1)
  | .ok seedUsers =>
    if seedUsers.isEmpty then (.error noUsersMsg, coll1)
    else
      let (docs, _) := create_user_docs g k now maxRegDelay seedUsers
      (.ok docs, batch_write coll1 (docs.map userDocToDoc) nextId)

/-! ## Pipeline coordinator (`create_demo_data`, `_clear_bigquery_tables`)

Stage bodies are abstracted as `Except`-valued outcomes (their counts on
success); the coordinator's control flow — the single `try`/`except`
around the stage sequence, and the per-table `try`/`except` inside
`_clear_bigquery_tables` that only logs — is modelled exactly. The trace
component records the stages that were started, in order. -/

structure Stats where
  users : Nat
  companies : Nat
  projects : Nat
  trending_entries : Nat
  renewals : Nat
  company_events : Nat
  user_events : Nat
deriving DecidableEq, Repr

structure RunResult where
  success : Bool
  message : String
  stats : Option Stats
deriving DecidableEq, Repr

structure StageEnv where
  createUserCollection : Except String Nat
  createCompanyCollection : Except String Nat
  createProjectsCollection : Except String Nat
  createTrendingCollection : Except String Nat
  companyEventsCount : Nat
  clearTableOutcomes : List (Except String Unit)
  writeCompanyEvents : Except String Unit
  createRenewalsCollection : Except String Nat
  updatedCompanyCount : Nat
  userEventsCount : Nat
  writeUserEvents : Except String Unit

/-- `_clear_bigquery_tables`: each table's truncation failure is caught and
logged inside the loop; the function never propagates an error. Returns
the number of tables cleared successfully. -/
def clear_bigquery_tables : (outcomes : List (Except String Unit)) → Nat
  | [] => 0
  | .ok _ :: rest => clear_bigquery_tables rest + 1
  | .error _ :: rest => clear_bigquery_tables rest

/-- Run one fallible stage, recording its name in the trace. -/
def runStage (name : String) (action : Except String α)
    (trace : List String) :
    Except (String × List String) (α × List String) :=
  match action with
  | .ok a => .ok (a, trace ++ [name])
  | .error e => .error (e, trace ++ [name])

/-- The stage sequence of `create_demo_data` in the `Except` monad; pure
stages (event generation, the company-patch loop — whose per-company
failures are swallowed) cannot fail. -/
def create_demo_data_stages (env : StageEnv) :
    Except (String × List String) (Stats × List String) := do
  let (users, t1) ← runStage "_create_user_collection" env.createUserCollection []
  let (companies, t2) ← runStage "_create_company_collection" env.createCompanyCollection t1
  let (projects, t3) ← runStage "_create_projects_collection" env.createProjectsCollection t2
  let (trending, t4) ← runStage "_create_trending_collection" env.createTrendingCollection t3
  let (companyEvents, t5) ←
    runStage "_generate_company_events" (.ok env.companyEventsCount) t4
  let _cleared := clear_bigquery_tables env.clearTableOutcomes
  let t6 := t5 ++ ["_clear_bigquery_tables"]
  let (_, t7) ← runStage "_write_company_events_to_bigquery" env.writeCompanyEvents t6
  let (renewals, t8) ← runStage "_create_renewals_collection" env.createRenewalsCollection t7
  let (_, t9) ←
    runStage "_update_company_docs_with_purchases_and_provisions"
      (.ok env.updatedCompanyCount) t8
  let (userEvents, t10) ← runStage "_generate_user_events" (.ok env.userEventsCount) t9
  let (_, t11) ← runStage "_write_user_events_to_bigquery" env.writeUserEvents t10
  return ({ users := users, companies := companies, projects := projects,
            trending_entries := trending, renewals := renewals,
            company_events := companyEvents, user_events := userEvents }, t11)

/-- `create_demo_data(user_limit)`: the surrounding `try`/`except` turns
any stage exception into a structured failure result (success flag, the
exception message, and no stats). -/
def create_demo_data (env : StageEnv) : RunResult × List String :=
  match create_demo_data_stages env with
  | .ok (stats, tr) =>
    ({ success := true, message := "Demo data created successfully",
       stats := some stats }, tr)
  | .error (e, tr) =>
    ({ success := false, message := "Demo data creation failed: " ++ e,
       stats := none }, tr)

/-! ## Division-checked variants of the user-event generators

`cdiv` fails on a zero divisor; the checked generators guard every
division the source performs, so `checked = some unchecked` states that no
division by zero can occur for any random draws. -/

/-- Division that fails instead of dividing by zero. -/
def cdiv (a b : ℚ) : Option ℚ := if b = 0 then none else some (a / b)

def ticket_loop_checked (g : Gen) (k : Nat) (email company : String)
    (numDrivers : Nat) (reg seconds : ℚ) (tickets : Int) :
    (i : Nat) → (remaining : Nat) → Option (List UserEvent × Nat)
  | _, 0 => some ([], k)
  | i, n + 1 => do
    let q1 ← cdiv seconds (tickets : ℚ)
    let q2 ← cdiv q1 (11 / 10 : ℚ)
    let eventDate := reg + ((pytrunc q2 * (i : Int) : Int) : ℚ)
    let (driver, k1) := choice g numDrivers k
    let ev : UserEvent :=
      { blankEvent eventDate .supportTicket email company with
        ticket_number := some (email, i), ticket_driver := some driver }
    let (rest, k2) ←
      ticket_loop_checked g k1 email company numDrivers reg seconds tickets (i + 1) n
    some (ev :: rest, k2)

def generate_ticket_events_user_checked (g : Gen) (k : Nat)
    (email company : String) (numDrivers : Nat) (reg now : ℚ) :
    Option (List UserEvent × Nat) := do
  let seconds := now - reg
  let d1 ← cdiv seconds 86400
  let daysSinceReg := pytrunc d1
  let (troubley, k1) := randint g 0 3 k
  let t1 ← cdiv (daysSinceReg : ℚ) ((4 - troubley : Int) : ℚ)
  let t2 ← cdiv t1 2
  let tickets := pytrunc t2
  ticket_loop_checked g k1 email company numDrivers reg seconds tickets 0
    tickets.toNat

def call_draws_checked (g : Gen) (k : Nat) (numGood numBad : Nat)
    (reg now : ℚ) (seconds : ℚ) (calls : Int)
    (happy ratey commenty chatty : Int) (callNum : Nat) :
    Option (CallDraws × Nat) := do
  let (callHappyScore, k1) := randint g 0 99 k
  let callHappy := happy * 25 ≤ callHappyScore
  let (callRatingScore, k2) := randint g 0 99 k1
  let (callRating, k3) :=
    if callRatingScore ≤ ratey * 40 then
      if callHappy then
        let (r, k') := randint g 4 5 k2
        ((some r : Option Int), k')
      else
        let (r, k') := randint g 1 3 k2
        ((some r : Option Int), k')
    else ((none : Option Int), k2)
  let (callCommentScore, k4) := randint g 0 99 k3
  let commentGate ← cdiv ((commenty * 33 * ratey : Int) : ℚ) 3
  let (callComment, k5) :=
    if (callCommentScore : ℚ) ≤ commentGate then
      match callRating with
      | some r =>
        if r ≠ 0 ∧ 3 ≤ r then
          let (i, k') := choice g numGood k4
          ((some (true, i) : Option (Bool × Nat)), k')
        else
          let (i, k') := choice g numBad k4
          ((some (false, i) : Option (Bool × Nat)), k')
      | none =>
        let (i, k') := choice g numBad k4
        ((some (false, i) : Option (Bool × Nat)), k')
    else ((none : Option (Bool × Nat)), k4)
  let (lenDraw, k6) := randint g 5 20 k5
  let callLength := chatty * lenDraw
  let (dialinScore, k7) := randint g 0 99 k6
  let dialinLength : Option Int := if dialinScore < 40 then some callLength else none
  let (typeScore, k8) := randint g 0 99 k7
  let callType : Nat :=
    if typeScore < 35 then 0 else if typeScore < 70 then 1
    else if typeScore < 90 then 2 else 3
  let (sizeScore, k9) := randint g 0 99 k8
  let callUsers : Int :=
    if sizeScore < 35 then 2 else if sizeScore < 70 then 3
    else if sizeScore < 95 then 4 else sizeScore - 90 + 5
  let (jitter, k10) := randint g (-1000) 1000 k9
  let perCall ← cdiv seconds (calls : ℚ)
  let shift := pytrunc (perCall + (jitter : ℚ)) * (callNum : Int)
  let eventDate0 := reg + (shift : ℚ)
  let eventDate := if now < eventDate0 then now else eventDate0
  some ({ callRating := callRating, callComment := callComment,
          callLength := callLength, dialinLength := dialinLength,
          callType := callType, callUsers := callUsers,
          eventDate := eventDate }, k10)

def call_loop_checked (g : Gen) (k : Nat) (numGood numBad : Nat)
    (email company : String) (osIdx : Nat) (reg now seconds : ℚ)
    (calls : Int) (happy ratey commenty chatty : Int) :
    (callIdx : Nat) → (remaining : Nat) → Option (List UserEvent × Nat)
  | _, 0 => some ([], k)
  | callIdx, n + 1 => do
    let (d, k1) ← call_draws_checked g k numGood numBad reg now seconds calls
      happy ratey commenty chatty (callIdx + 1)
    let grp := call_group email company osIdx now callIdx d
    let (rest, k2) ← call_loop_checked g k1 numGood numBad email company
      osIdx reg now seconds calls happy ratey commenty chatty (callIdx + 1) n
    some (grp ++ rest, k2)

def generate_call_events_user_checked (g : Gen) (k : Nat)
    (email company : String) (numOs numGood numBad : Nat) (reg now : ℚ) :
    Option (List UserEvent × Nat) := do
  let (osIdx, k1) := choice g numOs k
  let seconds := now - reg
  let d1 ← cdiv seconds 86400
  let daysSinceReg := pytrunc d1
  let (freq, k2) := randint g 1 10 k1
  let c1 ← cdiv (daysSinceReg : ℚ) ((11 - freq : Int) : ℚ)
  let calls := pytrunc (c1 * 10)
  let (happy, k3) := randint g 0 2 k2
  let (ratey, k4) := randint g 0 2 k3
  let (commenty, k5) := randint g 0 2 k4
  let (chatty, k6) := randint g 0 4 k5
  call_loop_checked g k6 numGood numBad email company osIdx reg now seconds
    calls happy ratey commenty chatty 0 calls.toNat

/-! ## Helper lemmas -/

theorem chunkList_flatten (n : Nat) (l : List α) :
    (chunkList (n + 1) l).flatten = l := by
  generalize hfuel : l.length = len
  induction len using Nat.strong_induction_on generalizing l with
  | _ len ih =>
    match l with
    | [] => simp [chunkList]
    | x :: xs =>
      rw [chunkList]
      simp only [List.flatten_cons]
      rw [ih ((x :: xs).drop (n + 1)).length (by simp at hfuel ⊢; omega) _ rfl]
      exact List.take_append_drop _ _

theorem chunkList_len_le (n : Nat) (l : List α) :
    ∀ c ∈ chunkList (n + 1) l, c.length ≤ n + 1 := by
  generalize hfuel : l.length = len
  induction len using Nat.strong_induction_on generalizing l with
  | _ len ih =>
    match l with
    | [] => simp [chunkList]
    | x :: xs =>
      rw [chunkList]
      intro c hc
      rcases List.mem_cons.mp hc with h | h
      · subst h; simp
      · exact ih ((x :: xs).drop (n + 1)).length (by simp at hfuel ⊢; omega) _ rfl c h

theorem insert_chunks_all_success (oracle : Nat → InsertOutcome)
    (cs : List (List α)) (st : IngestState)
    (h : ∀ n, st.calls ≤ n → oracle n = .success) :
    insert_chunks oracle cs st =
      .ok ⟨st.calls + cs.length, st.sleeps,
           st.totalInserted + (cs.map List.length).sum⟩ := by
  induction cs generalizing st with
  | nil => simp [insert_chunks]
  | cons c cs ih =>
    have hs : oracle st.calls = .success := h st.calls le_rfl
    simp only [insert_chunks, max_retries, attempt_chunk, hs]
    rw [ih _ (fun n hn => h n (by simp at hn ⊢; omega))]
    simp only [List.length_cons, List.map_cons, List.sum_cons, Except.ok.injEq,
      IngestState.mk.injEq, eq_self_iff_true, true_and, and_true]
    omega

theorem attempt_twice_then_ok (len : Nat) :
    attempt_chunk (fun n => if n < 2 then .transientNotFound else .success)
      len max_retries ⟨0, [], 0⟩ = .ok ⟨3, [1, 2], len⟩ := by
  simp [attempt_chunk, max_retries, base_delay]

theorem attempt_always_nf (len : Nat) :
    attempt_chunk (fun _ => InsertOutcome.transientNotFound)
      len max_retries ⟨0, [], 0⟩ = .error ("not found", ⟨3, [1, 2], 0⟩) := by
  simp [attempt_chunk, max_retries, base_delay]

theorem attempt_other (len : Nat) :
    attempt_chunk (fun _ => InsertOutcome.otherError)
      len max_retries ⟨0, [], 0⟩ = .error ("other error", ⟨1, [], 0⟩) := by
  simp [attempt_chunk, max_retries, base_delay]

/-! ## Claim C5 -/

/-- C5: `write_rows_to_table` chunks rows into chunks of 10,000 (the chunks
concatenate back to the rows and each has length at most 10,000) and
retries a chunk only on a transient table-not-found error, up to 3 attempts
with exponential backoff 1 s then 2 s. With a store that is
transient-not-found exactly twice and then succeeds, the insert completes
with all rows inserted after exactly 2 backoff sleeps of 1 s and 2 s; with
a store that always reports transient-not-found it fails after exactly 3
insert attempts (2 sleeps); a non-transient error is fatal on the first
attempt with no sleeps. -/
theorem claim_C5_retry (rows : List Nat) (h : rows ≠ []) :
    write_rows_to_table
        (fun n => if n < 2 then .transientNotFound else .success) rows =
      .ok ⟨(chunkList 10000 rows).length + 2, [1, 2], rows.length⟩
    ∧ (∃ msg st, write_rows_to_table
          (fun _ => InsertOutcome.transientNotFound) rows = .error (msg, st)
        ∧ st.calls = 3 ∧ st.sleeps = [1, 2] ∧ st.totalInserted = 0)
    ∧ (∃ msg st, write_rows_to_table
          (fun _ => InsertOutcome.otherError) rows = .error (msg, st)
        ∧ st.calls = 1 ∧ st.sleeps = [])
    ∧ (chunkList 10000 rows).flatten = rows
    ∧ (∀ c ∈ chunkList 10000 rows, c.length ≤ 10000) := by
  have hne : rows.isEmpty = false := by
    cases rows with
    | nil => exact absurd rfl h
    | cons x xs => rfl
  have hflat : (chunkList 10000 rows).flatten = rows := chunkList_flatten 9999 rows
  have hchunks : ∃ c cs, chunkList 10000 rows = c :: cs := by
    cases hc : chunkList 10000 rows with
    | nil => rw [hc] at hflat; exact absurd hflat.symm h
    | cons c cs => exact ⟨c, cs, rfl⟩
  obtain ⟨c, cs, hc⟩ := hchunks
  refine ⟨?_, ?_, ?_, hflat, chunkList_len_le 9999 rows⟩
  · rw [write_rows_to_table, hne]
    simp only [Bool.false_eq_true, if_false, hc, insert_chunks,
      attempt_twice_then_ok]
    rw [insert_chunks_all_success _ cs ⟨3, [1, 2], c.length⟩
      (fun n hn => by simp at hn ⊢; omega)]
    have hlen : c.length + (cs.map List.length).sum = rows.length := by
      have := congrArg List.length hflat
      rw [hc] at this
      simpa using this
    simp only [hc, List.length_cons, Except.ok.injEq, IngestState.mk.injEq,
      eq_self_iff_true, true_and, and_true]
    omega
  · refine ⟨"not found", ⟨3, [1, 2], 0⟩, ?_, rfl, rfl, rfl⟩
    rw [write_rows_to_table, hne]
    simp only [Bool.false_eq_true, if_false, hc, insert_chunks,
      attempt_always_nf]
  · refine ⟨"other error", ⟨1, [], 0⟩, ?_, rfl, rfl⟩
    rw [write_rows_to_table, hne]
    simp only [Bool.false_eq_true, if_false, hc, insert_chunks, attempt_other]

/-- Witness for C5 at the concrete input `rows = [7]`. -/
theorem claim_C5_retry_witness :
    ([7] : List Nat) ≠ [] ∧
    (write_rows_to_table
        (fun n => if n < 2 then .transientNotFound else .success) [7] =
      .ok ⟨(chunkList 10000 [7]).length + 2, [1, 2], ([7] : List Nat).length⟩
    ∧ (∃ msg st, write_rows_to_table
          (fun _ => InsertOutcome.transientNotFound) [7] = .error (msg, st)
        ∧ st.calls = 3 ∧ st.sleeps = [1, 2] ∧ st.totalInserted = 0)
    ∧ (∃ msg st, write_rows_to_table
          (fun _ => InsertOutcome.otherError) [7] = .error (msg, st)
        ∧ st.calls = 1 ∧ st.sleeps = [])
    ∧ (chunkList 10000 [7]).flatten = [7]
    ∧ (∀ c ∈ chunkList 10000 ([7] : List Nat), c.length ≤ 10000)) :=
  ⟨by decide, claim_C5_retry [7] (by decide)⟩

/-- Net effect of `delete_all_documents` on a collection with distinct
reference ids: exactly the first `batchSize * 4` documents (the stream's
`.limit`) are deleted. -/
theorem delete_all_documents_spec (coll : List RefDoc) (b : Nat)
    (hnd : (coll.map (·.1)).Nodup) :
    delete_all_documents coll (b + 1) =
      (min ((b + 1) * 4) coll.length, coll.drop ((b + 1) * 4)) := by
  set p := (b + 1) * 4 with hp
  have hcount :
      ((chunkList (b + 1) ((coll.take p).map (·.1))).map List.length).sum
        = min p coll.length := by
    have h1 := chunkList_flatten b ((coll.take p).map (·.1))
    have h2 := congrArg List.length h1
    rw [List.length_flatten] at h2
    simp at h2 ⊢
    omega
  have hdisj : ∀ e ∈ coll.drop p, e.1 ∉ (coll.take p).map (·.1) := by
    intro e he hmem
    have hsplit : coll.map (·.1)
        = (coll.take p).map (·.1) ++ (coll.drop p).map (·.1) := by
      rw [← List.map_append, List.take_append_drop]
    rw [hsplit] at hnd
    exact (List.nodup_append.mp hnd).2.2 hmem (List.mem_map_of_mem _ he)
  have htake : ∀ e ∈ coll.take p, e.1 ∈ (coll.take p).map (·.1) :=
    fun e he => List.mem_map_of_mem _ he
  have hfilter :
      (coll.filter fun d => decide (d.1 ∉ (coll.take p).map (·.1)))
        = coll.drop p := by
    set ids := (coll.take p).map (·.1) with hids
    conv_lhs => rw [← List.take_append_drop p coll]
    rw [List.filter_append]
    have h1 : (coll.take p).filter (fun d => decide (d.1 ∉ ids)) = [] := by
      apply List.filter_eq_nil_iff.mpr
      intro e he
      simp [htake e he]
    have h2 : (coll.drop p).filter (fun d => decide (d.1 ∉ ids))
        = coll.drop p := by
      apply List.filter_eq_self.mpr
      intro e he
      simp [hdisj e he]
    rw [h1, h2, List.nil_append]
  unfold delete_all_documents
  rw [Prod.mk.injEq]
  exact ⟨hcount, hfilter⟩

theorem replace_fst (coll : List RefDoc) (docs : List Doc) (nextId : Nat) :
    (replace coll docs nextId).1 = (delete_all_documents coll 500).1 := by
  unfold replace
  rcases h : delete_all_documents coll 500 with ⟨a, b⟩
  rfl

theorem replace_snd (coll : List RefDoc) (docs : List Doc) (nextId : Nat) :
    (replace coll docs nextId).2
      = batch_write (delete_all_documents coll 500).2 docs nextId := by
  unfold replace
  rcases h : delete_all_documents coll 500 with ⟨a, b⟩
  rfl

/-! ## Claim C4 -/

/-- A collection of 2001 documents with distinct reference ids. -/
def coll2001 : List RefDoc := (List.range 2001).map fun i => (i, [])

/-- C4 (code bug): with the default `batch_size = 500` the deletion phase
fetches references with `.select([]).limit(batch_size * 4)` and never
paginates, so on a 2001-document collection `delete_all_documents` deletes
only 2000 documents and one pre-existing document survives; a subsequent
`replace` with one new record leaves 2 records instead of 1. On an empty
target collection the claimed behaviour does hold: `replace` with 3 new
records leaves exactly 3 records and 0 pre-existing ones. -/
theorem claim_C4_limit_bug :
    (delete_all_documents coll2001 500).1 = 2000
    ∧ (delete_all_documents coll2001 500).2.length = 1
    ∧ (replace coll2001 [[("f", FVal.intV 1)]] 9000).2.length = 2
    ∧ (replace ([] : List RefDoc) [[], [], []] 0).1 = 0
    ∧ (replace ([] : List RefDoc) [[], [], []] 0).2.length = 3 := by
  have hnd : (coll2001.map (·.1)).Nodup := by
    have h : coll2001.map (·.1) = List.range 2001 := by
      rw [coll2001, List.map_map]
      exact List.map_id' _
    rw [h]
    exact List.nodup_range 2001
  have hdel := delete_all_documents_spec coll2001 499 hnd
  have hlen : coll2001.length = 2001 := by simp [coll2001]
  rw [hlen] at hdel
  norm_num at hdel
  have hdel1 : (delete_all_documents coll2001 500).1 = 2000 := by rw [hdel]
  have hdel2 : (delete_all_documents coll2001 500).2 = coll2001.drop 2000 := by
    rw [hdel]
  have hempty : delete_all_documents ([] : List RefDoc) 500 = (0, []) := by
    unfold delete_all_documents
    simp only [List.take_nil, List.map_nil]
    rw [chunkList]
    simp
  have hempty2 : (delete_all_documents ([] : List RefDoc) 500).2 = [] := by
    rw [hempty]
  refine ⟨hdel1, ?_, ?_, ?_, ?_⟩
  · rw [hdel2, List.length_drop, hlen]
  · rw [replace_snd, hdel2, batch_write]
    simp only [List.isEmpty_cons, Bool.false_eq_true, if_false,
      List.length_append, List.length_map, List.enum_length,
      List.length_drop, hlen]
    rfl
  · rw [replace_fst, hempty]
  · rw [replace_snd, hempty2, batch_write]
    simp only [List.isEmpty_cons, Bool.false_eq_true, if_false,
      List.length_append, List.length_map, List.enum_length,
      List.length_nil]
    rfl

/-! ## Claim C6 -/

/-- The stage names of `create_demo_data`, in execution order. -/
def stageNames : List String :=
  ["_create_user_collection", "_create_company_collection",
   "_create_projects_collection", "_create_trending_collection",
   "_generate_company_events", "_clear_bigquery_tables",
   "_write_company_events_to_bigquery", "_create_renewals_collection",
   "_update_company_docs_with_purchases_and_provisions",
   "_generate_user_events", "_write_user_events_to_bigquery"]

/-- An environment whose projects stage fails after the user (count 3) and
company (count 2) stages succeeded. -/
def envC6fail : StageEnv :=
  { createUserCollection := .ok 3, createCompanyCollection := .ok 2,
    createProjectsCollection := .error "boom",
    createTrendingCollection := .ok 4, companyEventsCount := 10,
    clearTableOutcomes := [.ok (), .ok ()], writeCompanyEvents := .ok (),
    createRenewalsCollection := .ok 2, updatedCompanyCount := 2,
    userEventsCount := 20, writeUserEvents := .ok () }

/-- Like `envC6fail` but with every genuine stage succeeding and both
BigQuery table truncations failing. -/
def envC6clear : StageEnv :=
  { envC6fail with
    createProjectsCollection := Except.ok 5,
    clearTableOutcomes := [Except.error "truncate failed",
                           Except.error "truncate failed"] }

/-- C6 counterexample: (i) when the projects stage fails after two stages
already accumulated counts 3 and 2, the structured failure result carries
no per-stage counts at all (`stats = none`), contradicting the claim that
the result contains the counts accumulated up to the failure point;
(ii) a failure of the table-truncation stage does not halt subsequent
stages — the run still executes every stage and reports success. -/
theorem claim_C6_counterexample :
    ((create_demo_data envC6fail).1.success = false
      ∧ (create_demo_data envC6fail).1.stats = none)
    ∧ ((create_demo_data envC6clear).1.success = true
      ∧ (create_demo_data envC6clear).2 = stageNames) :=
  ⟨⟨rfl, rfl⟩, ⟨rfl, rfl⟩⟩

/-- C6 (amended): a failure of any fallible stage other than BigQuery
table truncation makes the coordinator return a structured failure result
— success is true exactly when all fallible stages succeed — with the
exception message but no per-stage counts; the result never depends on the
truncation outcomes (those failures are logged and swallowed); and a
stage failure halts all subsequent stages (shown for the projects stage:
the trace stops at the failing stage). -/
theorem claim_C6_amended (env : StageEnv) :
    ((create_demo_data env).1.success = true ↔
      (env.createUserCollection.isOk = true
        ∧ env.createCompanyCollection.isOk = true
        ∧ env.createProjectsCollection.isOk = true
        ∧ env.createTrendingCollection.isOk = true
        ∧ env.writeCompanyEvents.isOk = true
        ∧ env.createRenewalsCollection.isOk = true
        ∧ env.writeUserEvents.isOk = true))
    ∧ ((create_demo_data env).1.success = false →
        (create_demo_data env).1.stats = none ∧
        ∃ e, (create_demo_data env).1.message = "Demo data creation failed: " ++ e)
    ∧ (∀ o, (create_demo_data { env with clearTableOutcomes := o }).1
          = (create_demo_data env).1)
    ∧ (∀ u c e, env.createUserCollection = .ok u →
        env.createCompanyCollection = .ok c →
        env.createProjectsCollection = .error e →
        create_demo_data env
          = ({ success := false, message := "Demo data creation failed: " ++ e,
               stats := none }, stageNames.take 3)) := by
  rcases env with ⟨u, c, p, t, ce, cl, w, r, up, ue, wu⟩
  refine ⟨?_, ?_, ?_, ?_⟩
  · cases u <;> cases c <;> cases p <;> cases t <;> cases w <;> cases r <;>
      cases wu <;>
      simp [create_demo_data, create_demo_data_stages, runStage, Except.isOk,
        Except.toBool, bind, Except.bind, pure, Except.pure]
  · cases u <;> cases c <;> cases p <;> cases t <;> cases w <;> cases r <;>
      cases wu <;>
      simp [create_demo_data, create_demo_data_stages, runStage, bind,
        Except.bind, pure, Except.pure]
  · intro o
    cases u <;> cases c <;> cases p <;> cases t <;> cases w <;> cases r <;>
      cases wu <;>
      simp [create_demo_data, create_demo_data_stages, runStage, bind,
        Except.bind, pure, Except.pure]
  · intro u' c' e hu hc hp
    subst hu; subst hc; subst hp
    simp [create_demo_data, create_demo_data_stages, runStage, bind,
      Except.bind, pure, Except.pure, stageNames]

/-- Witness for the amended C6 at the concrete environment `envC6fail`:
the failure result, the absence of stats, and the trace stopping at the
projects stage. -/
theorem claim_C6_amended_witness :
    create_demo_data envC6fail
      = ({ success := false, message := "Demo data creation failed: " ++ "boom",
           stats := none }, stageNames.take 3) :=
  (claim_C6_amended envC6fail).2.2.2 3 2 "boom" rfl rfl rfl

/-! ## Claim C7 -/

/-- C7 (amended): with no seed users available, `_create_user_collection`
fails with the fatal source-data error and performs no writes — but the
deletion of the existing users collection has already happened by then
(the collection is left in its post-deletion state, with nothing written). -/
theorem claim_C7_amended (g : Gen) (k : Nat) (now : ℚ) (maxRegDelay : Int)
    (coll : List RefDoc) (nextId : Nat) :
    create_user_collection g k now maxRegDelay coll (.ok []) nextId
      = (.error noUsersMsg, (delete_all_documents coll 500).2) := by
  unfold create_user_collection
  rcases h : delete_all_documents coll 500 with ⟨a, b⟩
  rfl

/-- C7 counterexample: on a store whose users collection holds one
document, an empty seed-user fetch aborts with the fatal source-data error
as claimed, but the users collection has already been emptied — a delete
was performed before the abort, contradicting "aborts before any writes
(or deletes)". -/
theorem claim_C7_counterexample :
    (create_user_collection (fun _ => 0) 0 0 120 [(0, [])] (.ok []) 0).1
        = .error noUsersMsg
    ∧ (create_user_collection (fun _ => 0) 0 0 120 [(0, [])] (.ok []) 0).2 = []
    ∧ ([((0 : Nat), ([] : Doc))]) ≠ [] := by
  have hnd : (([((0 : Nat), ([] : Doc))]).map (·.1)).Nodup := by simp
  have hdel := delete_all_documents_spec [(0, [])] 499 hnd
  norm_num at hdel
  have hmain : create_user_collection (fun _ => 0) 0 0 120 [(0, [])] (.ok []) 0
      = (.error noUsersMsg, []) := by
    unfold create_user_collection
    rw [hdel]
    rfl
  rw [hmain]
  exact ⟨rfl, rfl, by decide⟩

/-! ## Claim C8 -/

theorem lookup_append (f : String) : ∀ (l₁ l₂ : List (String × FVal)),
    List.lookup f (l₁ ++ l₂)
      = (List.lookup f l₁).orElse (fun _ => List.lookup f l₂)
  | [], l₂ => rfl
  | (a, b) :: l₁, l₂ => by
    by_cases h : f = a
    · simp [List.lookup, h]
    · simp only [List.cons_append, List.lookup, beq_iff_eq, if_neg h]
      have hb : (f == a) = false := beq_eq_false_iff_ne.mpr h
      simp [hb, lookup_append f l₁ l₂]

theorem mergeDoc_dget_none (d : Doc) (patch : List (String × FVal)) (f : String)
    (h : List.lookup f patch = none) :
    dget (mergeDoc d patch) f = dget d f := by
  simp [mergeDoc, dget, lookup_append, h]

theorem mergeDoc_dget_some (d : Doc) (patch : List (String × FVal)) (f : String)
    (w : FVal) (h : List.lookup f patch = some w) :
    dget (mergeDoc d patch) f = some w := by
  simp [mergeDoc, dget, lookup_append, h]

theorem update_found (field : String) (v : FVal) (patch : List (String × FVal)) :
    ∀ (pre : List Doc) (d : Doc) (post : List Doc),
    (∀ d' ∈ pre, dget d' field ≠ some v) → dget d field = some v →
    update_document_by_field field v patch (pre ++ d :: post)
      = .ok (pre ++ mergeDoc d patch :: post)
  | [], d, post, _, hd => by
    simp [update_document_by_field, hd]
  | p :: pre, d, post, hpre, hd => by
    have hp : ¬ dget p field = some v := hpre p (List.mem_cons_self _ _)
    simp only [List.cons_append, update_document_by_field, if_neg hp,
      List.append_eq]
    rw [update_found field v patch pre d post
      (fun d' h => hpre d' (List.mem_cons_of_mem _ h)) hd]
    rfl

theorem update_nomatch (field : String) (v : FVal) (patch : List (String × FVal)) :
    ∀ (docs : List Doc),
    (∀ d' ∈ docs, dget d' field ≠ some v) →
    ∃ e, update_document_by_field field v patch docs = .error e
  | [], _ => ⟨"No document found", rfl⟩
  | d :: docs, h => by
    obtain ⟨e, he⟩ := update_nomatch field v patch docs
      (fun d' hm => h d' (List.mem_cons_of_mem _ hm))
    refine ⟨e, ?_⟩
    simp only [update_document_by_field, if_neg (h d (List.mem_cons_self _ _)), he]
    rfl

theorem update_match_ok (field : String) (v : FVal) (patch : List (String × FVal)) :
    ∀ (docs : List Doc),
    (∃ d ∈ docs, dget d field = some v) →
    ∃ docs', update_document_by_field field v patch docs = .ok docs'
  | [], h => absurd h (by simp)
  | d :: docs, h => by
    by_cases hd : dget d field = some v
    · exact ⟨mergeDoc d patch :: docs, by simp [update_document_by_field, hd]⟩
    · obtain ⟨d', hmem, hv⟩ := h
      rcases List.mem_cons.mp hmem with rfl | hmem'
      · exact absurd hv hd
      · obtain ⟨docs', hdocs'⟩ := update_match_ok field v patch docs ⟨d', hmem', hv⟩
        exact ⟨d :: docs', by simp [update_document_by_field, hd, hdocs', Except.map]⟩

theorem update_preserves_match (field : String) (v : FVal)
    (patch : List (String × FVal)) (hpatch : List.lookup field patch = none) :
    ∀ (docs docs' : List Doc),
    update_document_by_field field v patch docs = .ok docs' →
    ∀ w, (∃ d ∈ docs', dget d field = some w) ↔ (∃ d ∈ docs, dget d field = some w)
  | [], docs', h => by simp [update_document_by_field] at h
  | d :: docs, docs', h => by
    intro w
    by_cases hd : dget d field = some v
    · simp only [update_document_by_field, if_pos hd, Except.ok.injEq] at h
      subst h
      have hm := mergeDoc_dget_none d patch field hpatch
      constructor
      · rintro ⟨d', hmem, hv⟩
        rcases List.mem_cons.mp hmem with rfl | hmem'
        · exact ⟨d, List.mem_cons_self _ _, by rw [← hm]; exact hv⟩
        · exact ⟨d', List.mem_cons_of_mem _ hmem', hv⟩
      · rintro ⟨d', hmem, hv⟩
        rcases List.mem_cons.mp hmem with rfl | hmem'
        · exact ⟨mergeDoc d' patch, List.mem_cons_self _ _, by rw [hm]; exact hv⟩
        · exact ⟨d', List.mem_cons_of_mem _ hmem', hv⟩
    · simp only [update_document_by_field, if_neg hd] at h
      cases hrec : update_document_by_field field v patch docs with
      | error e => rw [hrec] at h; simp [Except.map] at h
      | ok rest' =>
        rw [hrec] at h
        simp only [Except.map, Except.ok.injEq] at h
        subst h
        have ih := update_preserves_match field v patch hpatch docs rest' hrec w
        constructor
        · rintro ⟨d', hmem, hv⟩
          rcases List.mem_cons.mp hmem with rfl | hmem'
          · exact ⟨d', List.mem_cons_self _ _, hv⟩
          · obtain ⟨d'', hm'', hv''⟩ := ih.mp ⟨d', hmem', hv⟩
            exact ⟨d'', List.mem_cons_of_mem _ hm'', hv''⟩
        · rintro ⟨d', hmem, hv⟩
          rcases List.mem_cons.mp hmem with rfl | hmem'
          · exact ⟨d', List.mem_cons_self _ _, hv⟩
          · obtain ⟨d'', hm'', hv''⟩ := ih.mpr ⟨d', hmem', hv⟩
            exact ⟨d'', List.mem_cons_of_mem _ hm'', hv''⟩

theorem update_company_docs_count :
    ∀ (updates : List (String × Int × Int)) (docs : List Doc),
    (update_company_docs docs updates).2
      = updates.countP fun u =>
          decide (∃ d ∈ docs, dget d "name" = some (FVal.strV u.1))
  | [], docs => by simp [update_company_docs]
  | (c, pur, prov) :: updates, docs => by
    rw [List.countP_cons]
    simp only [update_company_docs]
    cases hx : update_document_by_field "name" (FVal.strV c)
        [("boxes_bought", FVal.intV pur), ("boxes_prov", FVal.intV prov)] docs with
    | ok docs' =>
      have hex : ∃ d ∈ docs, dget d "name" = some (FVal.strV c) := by
        by_contra hne
        push_neg at hne
        obtain ⟨e, he⟩ := update_nomatch _ _ _ docs hne
        rw [hx] at he
        cases he
      have hiff := update_preserves_match "name" (FVal.strV c) _ (by rfl)
        docs docs' hx
      have hcount := update_company_docs_count updates docs'
      have hpred : (fun (u : String × Int × Int) =>
          decide (∃ d ∈ docs', dget d "name" = some (FVal.strV u.1)))
          = (fun u => decide (∃ d ∈ docs, dget d "name" = some (FVal.strV u.1))) := by
        funext u
        exact decide_eq_decide.mpr (hiff (FVal.strV u.1))
      dsimp only
      rw [hcount, hpred]
      simp [hex]
    | error e =>
      have hnex : ¬ ∃ d ∈ docs, dget d "name" = some (FVal.strV c) := by
        intro hex
        obtain ⟨docs', h'⟩ := update_match_ok _ _ _ docs hex
        rw [hx] at h'
        cases h'
      dsimp only
      rw [update_company_docs_count updates docs]
      simp [hnex]

/-- C8: a successful `update_document_by_field` targets the single matching
record (the one whose `field` equals `value`), merges exactly the patch
fields into it — patched fields take the new values, all other fields of
that record and all other records are unchanged — and the update fails with
an error when no record matches; in the company-patch loop, a per-company
failure is skipped without aborting, so the number of successful updates is
exactly the number of updates whose company has a matching document. -/
theorem claim_C8_patch_semantics (pre post : List Doc) (d : Doc)
    (field : String) (v : FVal) (patch : List (String × FVal))
    (hpre : ∀ d' ∈ pre, dget d' field ≠ some v)
    (hd : dget d field = some v) :
    update_document_by_field field v patch (pre ++ d :: post)
        = .ok (pre ++ mergeDoc d patch :: post)
    ∧ (∀ f, List.lookup f patch = none → dget (mergeDoc d patch) f = dget d f)
    ∧ (∀ f w, List.lookup f patch = some w → dget (mergeDoc d patch) f = some w)
    ∧ (∀ docs : List Doc, (∀ d' ∈ docs, dget d' field ≠ some v) →
        ∃ e, update_document_by_field field v patch docs = Except.error e)
    ∧ (∀ (updates : List (String × Int × Int)) (docs : List Doc),
        (update_company_docs docs updates).2
          = updates.countP fun u =>
              decide (∃ d' ∈ docs, dget d' "name" = some (FVal.strV u.1))) :=
  ⟨update_found field v patch pre d post hpre hd,
   fun f h => mergeDoc_dget_none d patch f h,
   fun f w h => mergeDoc_dget_some d patch f w h,
   fun docs h => update_nomatch field v patch docs h,
   fun updates docs => update_company_docs_count updates docs⟩

/-- Witness for C8: a two-document companies collection where the patch
targets the document named "acme" and the document named "beta" is
untouched. -/
theorem claim_C8_patch_semantics_witness :
    update_document_by_field "name" (FVal.strV "acme")
        [("boxes_bought", FVal.intV 7), ("boxes_prov", FVal.intV 5)]
        ([] ++ mkCompanyDoc "acme" 0 :: [mkCompanyDoc "beta" 0])
        = .ok ([] ++ mergeDoc (mkCompanyDoc "acme" 0)
            [("boxes_bought", FVal.intV 7), ("boxes_prov", FVal.intV 5)]
          :: [mkCompanyDoc "beta" 0])
    ∧ (∀ f, List.lookup f
          [("boxes_bought", FVal.intV 7), ("boxes_prov", FVal.intV 5)] = none →
        dget (mergeDoc (mkCompanyDoc "acme" 0)
          [("boxes_bought", FVal.intV 7), ("boxes_prov", FVal.intV 5)]) f
          = dget (mkCompanyDoc "acme" 0) f)
    ∧ (∀ f w, List.lookup f
          [("boxes_bought", FVal.intV 7), ("boxes_prov", FVal.intV 5)] = some w →
        dget (mergeDoc (mkCompanyDoc "acme" 0)
          [("boxes_bought", FVal.intV 7), ("boxes_prov", FVal.intV 5)]) f
          = some w)
    ∧ (∀ docs : List Doc,
        (∀ d' ∈ docs, dget d' "name" ≠ some (FVal.strV "acme")) →
        ∃ e, update_document_by_field "name" (FVal.strV "acme")
          [("boxes_bought", FVal.intV 7), ("boxes_prov", FVal.intV 5)] docs
          = Except.error e)
    ∧ (∀ (updates : List (String × Int × Int)) (docs : List Doc),
        (update_company_docs docs updates).2
          = updates.countP fun u =>
              decide (∃ d' ∈ docs, dget d' "name" = some (FVal.strV u.1))) :=
  claim_C8_patch_semantics [] [mkCompanyDoc "beta" 0] (mkCompanyDoc "acme" 0)
    "name" (FVal.strV "acme")
    [("boxes_bought", FVal.intV 7), ("boxes_prov", FVal.intV 5)]
    (by simp) (by rfl)

/-! ## Claim C1 -/

/-- An update for company `c` leaves `docForName · x` unchanged for `x ≠ c`
(the patch does not touch the `name` field). -/
theorem update_docForName_other (c : String) (patch : List (String × FVal))
    (hpatch : List.lookup "name" patch = none) :
    ∀ (docs docs' : List Doc),
    update_document_by_field "name" (FVal.strV c) patch docs = .ok docs' →
    ∀ x, x ≠ c → docForName docs' x = docForName docs x
  | [], docs', h => by simp [update_document_by_field] at h
  | d :: docs, docs', h => by
    intro x hx
    by_cases hd : dget d "name" = some (FVal.strV c)
    · simp only [update_document_by_field, if_pos hd, Except.ok.injEq] at h
      subst h
      have hm : dget (mergeDoc d patch) "name" = dget d "name" :=
        mergeDoc_dget_none d patch "name" hpatch
      have hpred : ¬ dget d "name" = some (FVal.strV x) := by
        rw [hd]
        simp only [Option.some.injEq, FVal.strV.injEq]
        exact fun hcx => hx hcx.symm
      simp only [docForName, List.find?]
      rw [hm]
      simp [hpred]
    · simp only [update_document_by_field, if_neg hd] at h
      cases hrec : update_document_by_field "name" (FVal.strV c) patch docs with
      | error e => rw [hrec] at h; simp [Except.map] at h
      | ok rest' =>
        rw [hrec] at h
        simp only [Except.map, Except.ok.injEq] at h
        subst h
        have ih := update_docForName_other c patch hpatch docs rest' hrec x hx
        simp only [docForName, List.find?] at ih ⊢
        cases hp : decide (dget d "name" = some (FVal.strV x)) with
        | true => rfl
        | false => exact ih

/-- An update for company `c` replaces the first document named `c` by its
merge with the patch, and `docForName · c` finds exactly that document. -/
theorem update_docForName_target (c : String) (patch : List (String × FVal))
    (hpatch : List.lookup "name" patch = none) :
    ∀ (docs docs' : List Doc) (d : Doc),
    docForName docs c = some d →
    update_document_by_field "name" (FVal.strV c) patch docs = .ok docs' →
    docForName docs' c = some (mergeDoc d patch)
  | [], docs', d, hfind => by simp [docForName] at hfind
  | d0 :: docs, docs', d, hfind => by
    intro h
    by_cases hd : dget d0 "name" = some (FVal.strV c)
    · have hfind0 : docForName (d0 :: docs) c = some d0 := by
        simp [docForName, List.find?, hd]
      rw [hfind0] at hfind
      cases hfind
      simp only [update_document_by_field, if_pos hd, Except.ok.injEq] at h
      subst h
      have hm : dget (mergeDoc d0 patch) "name" = dget d0 "name" :=
        mergeDoc_dget_none d0 patch "name" hpatch
      simp [docForName, List.find?, hm, hd]
    · simp only [update_document_by_field, if_neg hd] at h
      cases hrec : update_document_by_field "name" (FVal.strV c) patch docs with
      | error e => rw [hrec] at h; simp [Except.map] at h
      | ok rest' =>
        rw [hrec] at h
        simp only [Except.map, Except.ok.injEq] at h
        subst h
        have hfind' : docForName docs c = some d := by
          simp only [docForName, List.find?, hd] at hfind ⊢
          simpa [decide_eq_false hd] using hfind
        have ih := update_docForName_target c patch hpatch docs rest' d hfind' hrec
        simp only [docForName, List.find?] at ih ⊢
        simp [decide_eq_false hd, ih]

/-- Existence of a matching document gives `docForName` a hit. -/
theorem docForName_of_mem (docs : List Doc) (c : String)
    (h : ∃ d ∈ docs, dget d "name" = some (FVal.strV c)) :
    ∃ d, docForName docs c = some d := by
  cases hf : docForName docs c with
  | some d => exact ⟨d, rfl⟩
  | none =>
    obtain ⟨d, hmem, hd⟩ := h
    have := List.find?_eq_none.mp hf d hmem
    simp [hd] at this

/-- `update_company_docs` leaves `docForName · c` unchanged when `c` is not
among the updated company names. -/
theorem update_company_docs_docForName_other :
    ∀ (updates : List (String × Int × Int)) (docs : List Doc) (c : String),
    c ∉ updates.map (·.1) →
    docForName (update_company_docs docs updates).1 c = docForName docs c
  | [], docs, c, _ => rfl
  | (c', pur, prov) :: rest, docs, c, hmem => by
    have hne : c ≠ c' := fun h => hmem (by simp [h])
    have hrest : c ∉ rest.map (·.1) := fun h => hmem (by simp [h])
    simp only [update_company_docs]
    cases hx : update_document_by_field "name" (FVal.strV c')
        [("boxes_bought", FVal.intV pur), ("boxes_prov", FVal.intV prov)] docs with
    | ok docs' =>
      dsimp only
      rw [update_company_docs_docForName_other rest docs' c hrest]
      exact update_docForName_other c' _ (by rfl) docs docs' hx c hne
    | error e =>
      exact update_company_docs_docForName_other rest docs c hrest

/-- After the patch loop, a company that occurs in the (nodup-named)
updates and has a matching document ends with exactly the patched totals. -/
theorem update_company_docs_target :
    ∀ (updates : List (String × Int × Int)) (docs : List Doc)
      (name : String) (pur prov : Int),
    (updates.map (·.1)).Nodup →
    (name, pur, prov) ∈ updates →
    (∃ d, docForName docs name = some d) →
    docLookup (update_company_docs docs updates).1 name "boxes_bought"
        = some (FVal.intV pur)
    ∧ docLookup (update_company_docs docs updates).1 name "boxes_prov"
        = some (FVal.intV prov)
  | [], _, _, _, _, _, hmem, _ => absurd hmem (List.not_mem_nil _)
  | (c, p', pr') :: rest, docs, name, pur, prov, hnd, hmem, hex => by
    obtain ⟨d, hd⟩ := hex
    have hdmem : d ∈ docs ∧ dget d "name" = some (FVal.strV name) := by
      refine ⟨List.mem_of_find?_eq_some hd, ?_⟩
      have := List.find?_some hd
      simpa using this
    by_cases hc : c = name
    · subst hc
      have hhead : p' = pur ∧ pr' = prov := by
        rcases List.mem_cons.mp hmem with heq | hmem'
        · injection heq with h1 h2
          injection h2 with h3 h4
          exact ⟨h3.symm, h4.symm⟩
        · exfalso
          have hin : c ∈ rest.map (·.1) := List.mem_map_of_mem (·.1) hmem'
          exact (List.nodup_cons.mp hnd).1 hin
      obtain ⟨hp, hpr⟩ := hhead
      rw [hp, hpr]
      obtain ⟨docs', hok⟩ := update_match_ok "name" (FVal.strV c)
        [("boxes_bought", FVal.intV pur), ("boxes_prov", FVal.intV prov)] docs
        ⟨d, hdmem.1, hdmem.2⟩
      have htargets := update_docForName_target c _ (by rfl) docs docs' d hd hok
      have hrest : c ∉ rest.map (·.1) := (List.nodup_cons.mp hnd).1
      simp only [update_company_docs]
      rw [hok]
      dsimp only
      rw [docLookup, docLookup,
        update_company_docs_docForName_other rest docs' c hrest, htargets]
      constructor
      · exact mergeDoc_dget_some d
          [("boxes_bought", FVal.intV pur), ("boxes_prov", FVal.intV prov)]
          "boxes_bought" (FVal.intV pur) rfl
      · exact mergeDoc_dget_some d
          [("boxes_bought", FVal.intV pur), ("boxes_prov", FVal.intV prov)]
          "boxes_prov" (FVal.intV prov) rfl
    · have hmem' : (name, pur, prov) ∈ rest := by
        rcases List.mem_cons.mp hmem with heq | hmem'
        · cases heq; exact absurd rfl hc
        · exact hmem'
      have hnd' : (rest.map (·.1)).Nodup := (List.nodup_cons.mp hnd).2
      simp only [update_company_docs]
      cases hx : update_document_by_field "name" (FVal.strV c)
          [("boxes_bought", FVal.intV p'), ("boxes_prov", FVal.intV pr')] docs with
      | ok docs' =>
        dsimp only
        have hpres := update_docForName_other c _ (by rfl) docs docs' hx name
          (fun h => hc h.symm)
        exact update_company_docs_target rest docs' name pur prov hnd' hmem'
          ⟨d, by rw [hpres]; exact hd⟩
      | error e =>
        exact update_company_docs_target rest docs name pur prov hnd' hmem' ⟨d, hd⟩

theorem build_company_events_head (g : Gen) (k : Nat) (name : String)
    (reg now : ℚ) :
    ∃ e ∈ (build_company_events g k name reg now).1,
      e.type = .purchased ∧ e.company = name := by
  unfold build_company_events
  exact ⟨_, List.mem_cons_self _ _, rfl, rfl⟩

theorem generate_company_events_mem (g : Gen) (now : ℚ) :
    ∀ (companies : List (String × ℚ)) (k : Nat), ∀ p ∈ companies,
    ∃ e ∈ (generate_company_events g k now companies).1, e.company = p.1
  | [], _, p, hp => absurd hp (List.not_mem_nil _)
  | (name, reg) :: rest, k, p, hp => by
    rcases List.mem_cons.mp hp with heq | hmem
    · subst heq
      obtain ⟨e, hmem, _, hcomp⟩ := build_company_events_head g k name reg now
      exact ⟨e, by simp [generate_company_events, List.mem_append, hmem], hcomp⟩
    · obtain ⟨e, hin, hcomp⟩ :=
        generate_company_events_mem g now rest
          (build_company_events g k name reg now).2 p hmem
      exact ⟨e, by simp [generate_company_events, List.mem_append, hin], hcomp⟩

theorem mem_companiesOf (evs : List CompanyEvent) (c : String)
    (h : ∃ e ∈ evs, e.company = c) : c ∈ companiesOf evs := by
  obtain ⟨e, hmem, hc⟩ := h
  rw [companiesOf, List.mem_dedup]
  exact hc ▸ List.mem_map_of_mem _ hmem

theorem generate_company_updates_nodup (evs : List CompanyEvent) :
    ((generate_company_updates evs).map (·.1)).Nodup := by
  have h : (generate_company_updates evs).map (·.1) = companiesOf evs := by
    rw [generate_company_updates, List.map_map]
    exact List.map_id' _
  rw [h, companiesOf]
  exact List.nodup_dedup _

/-- C1: after generating company events and patching the freshly created
company documents with the aggregated updates, every generated company's
document carries `boxes_bought` equal to the sum of the "purchased"
quantities over that company's events and `boxes_prov` equal to the sum of
the "provisioned" quantities. -/
theorem claim_C1_totals (g : Gen) (k : Nat) (now : ℚ)
    (companies : List (String × ℚ)) :
    ∀ p ∈ companies,
      docLookup
          (update_company_docs (companies.map fun q => mkCompanyDoc q.1 q.2)
            (generate_company_updates
              (generate_company_events g k now companies).1)).1
          p.1 "boxes_bought"
        = some (FVal.intV (purchasedTotal
            (generate_company_events g k now companies).1 p.1))
      ∧ docLookup
          (update_company_docs (companies.map fun q => mkCompanyDoc q.1 q.2)
            (generate_company_updates
              (generate_company_events g k now companies).1)).1
          p.1 "boxes_prov"
        = some (FVal.intV (provisionedTotal
            (generate_company_events g k now companies).1 p.1)) := by
  intro p hp
  have hc : p.1 ∈ companiesOf (generate_company_events g k now companies).1 :=
    mem_companiesOf _ _ (generate_company_events_mem g now companies k p hp)
  have hmemupd :
      (p.1, purchasedTotal (generate_company_events g k now companies).1 p.1,
        provisionedTotal (generate_company_events g k now companies).1 p.1)
        ∈ generate_company_updates (generate_company_events g k now companies).1 :=
    List.mem_map_of_mem _ hc
  have hdoc : ∃ d ∈ companies.map fun q => mkCompanyDoc q.1 q.2,
      dget d "name" = some (FVal.strV p.1) :=
    ⟨mkCompanyDoc p.1 p.2, List.mem_map_of_mem _ hp, rfl⟩
  exact update_company_docs_target _ _ _ _ _
    (generate_company_updates_nodup _) hmemupd (docForName_of_mem _ _ hdoc)

/-- The constant-zero draw stream, used for concrete witnesses. -/
def gZero : Gen := fun _ => 0

/-- Witness for C1 at the single company `("a", 0)` with the zero draw
stream. -/
theorem claim_C1_totals_witness :
    docLookup
        (update_company_docs ([(("a" : String), (0 : ℚ))].map
            fun q => mkCompanyDoc q.1 q.2)
          (generate_company_updates
            (generate_company_events gZero 0 0 [("a", 0)]).1)).1
        ("a", (0 : ℚ)).1 "boxes_bought"
      = some (FVal.intV (purchasedTotal
          (generate_company_events gZero 0 0 [("a", 0)]).1 ("a", (0 : ℚ)).1))
    ∧ docLookup
        (update_company_docs ([(("a" : String), (0 : ℚ))].map
            fun q => mkCompanyDoc q.1 q.2)
          (generate_company_updates
            (generate_company_events gZero 0 0 [("a", 0)]).1)).1
        ("a", (0 : ℚ)).1 "boxes_prov"
      = some (FVal.intV (provisionedTotal
          (generate_company_events gZero 0 0 [("a", 0)]).1 ("a", (0 : ℚ)).1)) :=
  claim_C1_totals gZero 0 0 [("a", 0)] ("a", (0 : ℚ))
    (List.mem_cons_self _ _)

/-! ## Claim C9 -/

theorem purchasedTotal_nil (c : String) : purchasedTotal [] c = 0 := rfl

theorem provisionedTotal_nil (c : String) : provisionedTotal [] c = 0 := rfl

theorem purchasedTotal_cons (e : CompanyEvent) (l : List CompanyEvent)
    (c : String) :
    purchasedTotal (e :: l) c
      = (if e.type = .purchased ∧ e.company = c then e.purchased.getD 0 else 0)
        + purchasedTotal l c := by
  by_cases h : e.type = .purchased ∧ e.company = c <;>
    simp [purchasedTotal, List.filter_cons, h]

theorem provisionedTotal_cons (e : CompanyEvent) (l : List CompanyEvent)
    (c : String) :
    provisionedTotal (e :: l) c
      = (if e.type = .provisioned ∧ e.company = c then e.provisioned.getD 0 else 0)
        + provisionedTotal l c := by
  by_cases h : e.type = .provisioned ∧ e.company = c <;>
    simp [provisionedTotal, List.filter_cons, h]

theorem purchasedTotal_append (l₁ l₂ : List CompanyEvent) (c : String) :
    purchasedTotal (l₁ ++ l₂) c = purchasedTotal l₁ c + purchasedTotal l₂ c := by
  simp [purchasedTotal, List.filter_append]

theorem provisionedTotal_append (l₁ l₂ : List CompanyEvent) (c : String) :
    provisionedTotal (l₁ ++ l₂) c
      = provisionedTotal l₁ c + provisionedTotal l₂ c := by
  simp [provisionedTotal, List.filter_append]

theorem initial_prov_events_totals (g : Gen) (company : String)
    (provDate : ℚ) (c : String) :
    ∀ (count k device : Nat),
    purchasedTotal (initial_prov_events g k company provDate count device).1 c = 0
    ∧ provisionedTotal (initial_prov_events g k company provDate count device).1 c
        = if company = c then (count : Int) else 0
  | 0, k, device => by
    simp [initial_prov_events, purchasedTotal_nil, provisionedTotal_nil]
  | n + 1, k, device => by
    obtain ⟨ih1, ih2⟩ := initial_prov_events_totals g company provDate c n
      (randint g 100000 2000000 k).2 (device + 1)
    dsimp only [initial_prov_events]
    rw [purchasedTotal_cons, provisionedTotal_cons, ih1, ih2]
    constructor
    · simp
    · by_cases h : company = c
      · simp [h]
        omega
      · simp [h]

theorem later_prov_events_totals (g : Gen) (company : String)
    (provDate : ℚ) (c : String) :
    ∀ (count k boxes : Nat),
    purchasedTotal (later_prov_events g k company provDate count boxes).1 c = 0
    ∧ provisionedTotal (later_prov_events g k company provDate count boxes).1 c
        = if company = c then (count : Int) else 0
  | 0, k, boxes => by
    simp [later_prov_events, purchasedTotal_nil, provisionedTotal_nil]
  | n + 1, k, boxes => by
    obtain ⟨ih1, ih2⟩ := later_prov_events_totals g company provDate c n
      (randint g 100000 2000000 k).2 (boxes + 1)
    dsimp only [later_prov_events]
    rw [purchasedTotal_cons, provisionedTotal_cons, ih1, ih2]
    constructor
    · simp
    · by_cases h : company = c
      · simp [h]
        omega
      · simp [h]

theorem later_prov_purTotal (g : Gen) (company : String) (provDate : ℚ)
    (c : String) (count k boxes : Nat) :
    purchasedTotal (later_prov_events g k company provDate count boxes).1 c = 0 :=
  (later_prov_events_totals g company provDate c count k boxes).1

theorem later_prov_provTotal (g : Gen) (company : String) (provDate : ℚ)
    (c : String) (count k boxes : Nat) :
    provisionedTotal (later_prov_events g k company provDate count boxes).1 c
      = if company = c then (count : Int) else 0 :=
  (later_prov_events_totals g company provDate c count k boxes).2

theorem purchase_loop_prov_le (g : Gen) (company : String) (reg now : ℚ)
    (purchases : Int) (c : String) :
    ∀ (n i boxes k : Nat),
    provisionedTotal (purchase_loop g k company reg now purchases i n boxes).1 c
      ≤ purchasedTotal (purchase_loop g k company reg now purchases i n boxes).1 c
  | 0, i, boxes, k => by
    simp [purchase_loop, purchasedTotal_nil, provisionedTotal_nil]
  | n + 1, i, boxes, k => by
    have hpq := randint_bounds g 5 15 k (by norm_num)
    have hfd : Int.fdiv (randint g 5 15 k).1 2 ≤ (randint g 5 15 k).1
        ∧ 0 ≤ Int.fdiv (randint g 5 15 k).1 2 := by
      rw [Int.fdiv_eq_ediv _ (by norm_num : (0 : Int) ≤ 2)]
      omega
    have hlast := randint_bounds g (Int.fdiv (randint g 5 15 k).1 2)
      (randint g 5 15 k).1 (randint g 2 14 (randint g 5 15 k).2).2 hfd.1
    dsimp only [purchase_loop]
    simp only [provisionedTotal_cons, purchasedTotal_cons,
      provisionedTotal_append, purchasedTotal_append, later_prov_purTotal,
      later_prov_provTotal, reduceCtorEq, false_and, and_false, if_false,
      and_true, eq_self_iff_true, true_and, if_true, Option.getD_some,
      zero_add, add_zero]
    by_cases h : company = c
    · simp only [if_pos h]
      exact add_le_add (by omega)
        (purchase_loop_prov_le g company reg now purchases c n (i + 1) _ _)
    · simp only [if_neg h]
      simpa using
        purchase_loop_prov_le g company reg now purchases c n (i + 1) _ _

theorem initial_prov_purTotal (g : Gen) (company : String) (provDate : ℚ)
    (c : String) (count k device : Nat) :
    purchasedTotal (initial_prov_events g k company provDate count device).1 c
      = 0 :=
  (initial_prov_events_totals g company provDate c count k device).1

theorem initial_prov_provTotal (g : Gen) (company : String) (provDate : ℚ)
    (c : String) (count k device : Nat) :
    provisionedTotal (initial_prov_events g k company provDate count device).1 c
      = if company = c then (count : Int) else 0 :=
  (initial_prov_events_totals g company provDate c count k device).2

/-- Per company build: total provisioned never exceeds total purchased
(the initial provisioning count is drawn from `[1, initial_purchase]` and
each later one from `[purchased // 2, purchased]`). -/
theorem build_company_events_prov_le (g : Gen) (k : Nat) (company : String)
    (reg now : ℚ) (c : String) :
    provisionedTotal (build_company_events g k company reg now).1 c
      ≤ purchasedTotal (build_company_events g k company reg now).1 c := by
  have hip := randint_bounds g 1 15 k (by norm_num)
  have hinit := randint_bounds g 1 (randint g 1 15 k).1
    (randint g 2 14 (randint g 1 15 k).2).2 hip.1
  dsimp only [build_company_events]
  simp only [provisionedTotal_cons, purchasedTotal_cons,
    provisionedTotal_append, purchasedTotal_append, initial_prov_purTotal,
    initial_prov_provTotal, reduceCtorEq, false_and, and_false, if_false,
    and_true, eq_self_iff_true, true_and, if_true, Option.getD_some,
    zero_add, add_zero]
  by_cases h : company = c
  · simp only [if_pos h]
    exact add_le_add (by omega)
      (purchase_loop_prov_le g company reg now _ c _ 1 _ _)
  · simp only [if_neg h]
    simpa using purchase_loop_prov_le g company reg now _ c _ 1 _ _

theorem generate_company_events_prov_le (g : Gen) (now : ℚ) :
    ∀ (companies : List (String × ℚ)) (k : Nat) (c : String),
    provisionedTotal (generate_company_events g k now companies).1 c
      ≤ purchasedTotal (generate_company_events g k now companies).1 c
  | [], k, c => by
    simp [generate_company_events, purchasedTotal_nil, provisionedTotal_nil]
  | (name, reg) :: rest, k, c => by
    dsimp only [generate_company_events]
    rw [provisionedTotal_append, purchasedTotal_append]
    exact add_le_add (build_company_events_prov_le g k name reg now c)
      (generate_company_events_prov_le g now rest _ c)

/-- C9: for every company, the sum of provisioned quantities over the
generated events never exceeds the sum of purchased quantities, and hence
every aggregated company update carries `provisioned_total ≤
purchased_total` — so the patch stage writes `boxes_prov ≤ boxes_bought`
for every updated company. -/
theorem claim_C9_prov_le_bought (g : Gen) (k : Nat) (now : ℚ)
    (companies : List (String × ℚ)) :
    (∀ c, provisionedTotal (generate_company_events g k now companies).1 c
      ≤ purchasedTotal (generate_company_events g k now companies).1 c)
    ∧ ∀ u ∈ generate_company_updates
        (generate_company_events g k now companies).1, u.2.2 ≤ u.2.1 := by
  refine ⟨fun c => generate_company_events_prov_le g now companies k c, ?_⟩
  intro u hu
  obtain ⟨c, _, rfl⟩ := List.mem_map.mp hu
  exact generate_company_events_prov_le g now companies k c

/-! ## Claim C10 -/

/-- The ticket count computed by `_generate_ticket_events` for one user
(`int(days_since_reg / (4 - troubley) / 2)`). -/
def ticketCount (g : Gen) (k : Nat) (reg now : ℚ) : Int :=
  pytrunc ((pytrunc ((now - reg) / 86400) : ℚ)
    / ((4 - (randint g 0 3 k).1 : Int) : ℚ) / 2)

/-- The call count computed by `_generate_call_events` for one user
(`int(days_since_reg / (11 - freq) * 10)`; the OS choice consumes the
first draw). -/
def callCount (g : Gen) (k : Nat) (numOs : Nat) (reg now : ℚ) : Int :=
  pytrunc ((pytrunc ((now - reg) / 86400) : ℚ)
    / ((11 - (randint g 1 10 (choice g numOs k).2).1 : Int) : ℚ) * 10)

theorem ticket_loop_checked_eq (g : Gen) (email company : String)
    (numDrivers : Nat) (reg seconds : ℚ) (tickets : Int)
    (h : (tickets : ℚ) ≠ 0) :
    ∀ (n i k : Nat),
    ticket_loop_checked g k email company numDrivers reg seconds tickets i n
      = some (ticket_loop g k email company numDrivers reg seconds tickets i n)
  | 0, i, k => rfl
  | n + 1, i, k => by
    simp only [ticket_loop_checked, ticket_loop, cdiv, h,
      (by norm_num : ¬((11 : ℚ) / 10 = 0)), if_false, ite_false,
      Option.bind_eq_bind, Option.some_bind]
    rw [ticket_loop_checked_eq g email company numDrivers reg seconds tickets
      h n (i + 1) _]
    rfl

theorem generate_ticket_events_user_checked_eq (g : Gen) (k : Nat)
    (email company : String) (numDrivers : Nat) (reg now : ℚ) :
    generate_ticket_events_user_checked g k email company numDrivers reg now
      = some (generate_ticket_events_user g k email company numDrivers reg now) := by
  have ht := randint_bounds g 0 3 k (by norm_num)
  have h4 : ((4 - (randint g 0 3 k).1 : Int) : ℚ) ≠ 0 := by
    rw [Ne, Int.cast_eq_zero]
    omega
  simp only [generate_ticket_events_user_checked, generate_ticket_events_user,
    cdiv, (by norm_num : ¬((86400 : ℚ) = 0)), h4,
    (by norm_num : ¬((2 : ℚ) = 0)), if_false, ite_false,
    Option.bind_eq_bind, Option.some_bind]
  by_cases h0 : (pytrunc ((pytrunc ((now - reg) / 86400) : ℚ)
      / ((4 - (randint g 0 3 k).1 : Int) : ℚ) / 2)).toNat = 0
  · rw [h0]
    rfl
  · have hpos : (0 : Int) < pytrunc ((pytrunc ((now - reg) / 86400) : ℚ)
        / ((4 - (randint g 0 3 k).1 : Int) : ℚ) / 2) := by omega
    exact ticket_loop_checked_eq g email company numDrivers reg (now - reg) _
      (by rw [Ne, Int.cast_eq_zero]; omega) _ 0 _

theorem call_draws_checked_eq (g : Gen) (k : Nat) (numGood numBad : Nat)
    (reg now : ℚ) (seconds : ℚ) (calls : Int)
    (happy ratey commenty chatty : Int) (callNum : Nat)
    (h : (calls : ℚ) ≠ 0) :
    call_draws_checked g k numGood numBad reg now seconds calls
        happy ratey commenty chatty callNum
      = some (call_draws g k numGood numBad reg now seconds calls
          happy ratey commenty chatty callNum) := by
  simp only [call_draws_checked, call_draws, cdiv,
    (by norm_num : ¬((3 : ℚ) = 0)), h, if_false, ite_false,
    Option.bind_eq_bind, Option.some_bind]

theorem call_loop_checked_eq (g : Gen) (numGood numBad : Nat)
    (email company : String) (osIdx : Nat) (reg now seconds : ℚ)
    (calls : Int) (happy ratey commenty chatty : Int)
    (h : (calls : ℚ) ≠ 0) :
    ∀ (n callIdx k : Nat),
    call_loop_checked g k numGood numBad email company osIdx reg now seconds
        calls happy ratey commenty chatty callIdx n
      = some (call_loop g k numGood numBad email company osIdx reg now seconds
          calls happy ratey commenty chatty callIdx n)
  | 0, callIdx, k => rfl
  | n + 1, callIdx, k => by
    rw [call_loop_checked, call_loop,
      call_draws_checked_eq g k numGood numBad reg now seconds calls
        happy ratey commenty chatty (callIdx + 1) h]
    simp only [Option.bind_eq_bind, Option.some_bind]
    rw [call_loop_checked_eq g numGood numBad email company osIdx reg now
      seconds calls happy ratey commenty chatty h n (callIdx + 1) _]
    rfl

theorem generate_call_events_user_checked_eq (g : Gen) (k : Nat)
    (email company : String) (numOs numGood numBad : Nat) (reg now : ℚ) :
    generate_call_events_user_checked g k email company numOs numGood numBad
        reg now
      = some (generate_call_events_user g k email company numOs numGood
          numBad reg now) := by
  have hf := randint_bounds g 1 10 (choice g numOs k).2 (by norm_num)
  have h11 : ((11 - (randint g 1 10 (choice g numOs k).2).1 : Int) : ℚ) ≠ 0 := by
    rw [Ne, Int.cast_eq_zero]
    omega
  simp only [generate_call_events_user_checked, generate_call_events_user,
    cdiv, (by norm_num : ¬((86400 : ℚ) = 0)), h11, if_false, ite_false,
    Option.bind_eq_bind, Option.some_bind]
  by_cases h0 : (pytrunc ((pytrunc ((now - reg) / 86400) : ℚ)
      / ((11 - (randint g 1 10 (choice g numOs k).2).1 : Int) : ℚ) * 10)).toNat = 0
  · rw [h0]
    rfl
  · have hpos : (0 : Int) < pytrunc ((pytrunc ((now - reg) / 86400) : ℚ)
        / ((11 - (randint g 1 10 (choice g numOs k).2).1 : Int) : ℚ) * 10) := by
      omega
    exact call_loop_checked_eq g numGood numBad email company _ reg now
      (now - reg) _ _ _ _ _ (by rw [Ne, Int.cast_eq_zero]; omega) _ 0 _

theorem ticket_events_empty_of_nonpos (g : Gen) (k : Nat)
    (email company : String) (numDrivers : Nat) (reg now : ℚ)
    (h : ticketCount g k reg now ≤ 0) :
    (generate_ticket_events_user g k email company numDrivers reg now).1 = [] := by
  have h0 : (ticketCount g k reg now).toNat = 0 := by omega
  dsimp only [generate_ticket_events_user]
  rw [show (pytrunc ((pytrunc ((now - reg) / 86400) : ℚ)
      / ((4 - (randint g 0 3 k).1 : Int) : ℚ) / 2)).toNat = 0 from h0]
  rfl

theorem call_events_empty_of_nonpos (g : Gen) (k : Nat)
    (email company : String) (numOs numGood numBad : Nat) (reg now : ℚ)
    (h : callCount g k numOs reg now ≤ 0) :
    (generate_call_events_user g k email company numOs numGood numBad
      reg now).1 = [] := by
  have h0 : (callCount g k numOs reg now).toNat = 0 := by omega
  dsimp only [generate_call_events_user]
  rw [show (pytrunc ((pytrunc ((now - reg) / 86400) : ℚ)
      / ((11 - (randint g 1 10 (choice g numOs k).2).1 : Int) : ℚ)
        * 10)).toNat = 0 from h0]
  rfl

/-- C10: the ticket and call generators are total for every outcome of the
random draws: the division-checked variants (which fail on any zero
divisor — `4 - troubley` with `troubley ∈ [0,3]`, `11 - freq` with
`freq ∈ [1,10]`, and the per-event divisions by the ticket and call
counts, which only run inside loops entered when the count is positive)
always succeed and agree with the unchecked generators; and when a count
resolves to zero or below, the generator emits no events for that user. -/
theorem claim_C10_no_div_by_zero (g : Gen) (k : Nat)
    (email company : String) (numDrivers numOs numGood numBad : Nat)
    (reg now : ℚ) :
    generate_ticket_events_user_checked g k email company numDrivers reg now
      = some (generate_ticket_events_user g k email company numDrivers reg now)
    ∧ generate_call_events_user_checked g k email company numOs numGood
        numBad reg now
      = some (generate_call_events_user g k email company numOs numGood
          numBad reg now)
    ∧ (ticketCount g k reg now ≤ 0 →
        (generate_ticket_events_user g k email company numDrivers reg now).1
          = [])
    ∧ (callCount g k numOs reg now ≤ 0 →
        (generate_call_events_user g k email company numOs numGood numBad
          reg now).1 = []) :=
  ⟨generate_ticket_events_user_checked_eq g k email company numDrivers reg now,
   generate_call_events_user_checked_eq g k email company numOs numGood
     numBad reg now,
   fun h => ticket_events_empty_of_nonpos g k email company numDrivers reg
     now h,
   fun h => call_events_empty_of_nonpos g k email company numOs numGood
     numBad reg now h⟩

theorem pytrunc_zero : pytrunc 0 = 0 := by
  rw [pytrunc, if_pos le_rfl, Rat.floor_def']
  norm_num

/-- Witness for C10 at the zero draw stream with `reg = now`: both counts
resolve to 0 and both generators emit no events for the user. -/
theorem claim_C10_no_div_by_zero_witness :
    (generate_ticket_events_user gZero 0 "u" "c" 3 0 0).1 = []
    ∧ (generate_call_events_user gZero 0 "u" "c" 5 5 5 0 0).1 = [] :=
  ⟨(claim_C10_no_div_by_zero gZero 0 "u" "c" 3 5 5 5 0 0).2.2.1
    (by norm_num [ticketCount, randint, gZero, pytrunc_zero]),
   (claim_C10_no_div_by_zero gZero 0 "u" "c" 3 5 5 5 0 0).2.2.2
    (by norm_num [callCount, randint, choice, gZero, pytrunc_zero])⟩

/-! ## Claim C2 -/

/-- Draw stream for the C2 counterexample: the initial provisioning delay
draw is 12 (so the delay is 14 days) and the purchase-multiplier draw is 1
(so `purchases = 2 × months`); all other draws are 0. -/
def gC2 : Gen := fun n => if n = 1 then 12 else if n = 4 then 1 else 0

/-- C2 counterexample: for a company registered 60 days ago, the initial
provisioning events can be dated `reg + 14 d` while the first interpolated
subsequent purchase is dated `reg + 60 d / 6 = reg + 10 d`, so the event
list's timestamps decrease in generation order. -/
theorem claim_C2_counterexample :
    ¬ List.Chain' (· ≤ ·)
      (((build_company_events gC2 0 "acme" 0 5184000).1).map (·.timestamp)) := by
  intro hchain
  simp only [build_company_events, initial_prov_events, purchase_loop,
    later_prov_events, randint, gC2] at hchain
  norm_num [pytrunc, Rat.floor_def', List.chain'_cons] at hchain
  norm_num [purchase_loop, later_prov_events, randint, gC2, pytrunc,
    Rat.floor_def', Int.toNat_ofNat, List.chain'_cons] at hchain

/-- Timestamps of the "purchased" events, in generation order. -/
def purchasedTimestamps (evs : List CompanyEvent) : List ℚ :=
  (evs.filter fun e => decide (e.type = .purchased)).map (·.timestamp)

theorem initial_prov_events_no_pur (g : Gen) (company : String)
    (provDate : ℚ) :
    ∀ (count k device : Nat),
    purchasedTimestamps (initial_prov_events g k company provDate count device).1
      = []
  | 0, k, device => rfl
  | n + 1, k, device => by
    dsimp only [initial_prov_events]
    simp only [purchasedTimestamps, List.filter_cons, reduceCtorEq,
      decide_False, if_false, Bool.false_eq_true]
    exact initial_prov_events_no_pur g company provDate n _ _

theorem later_prov_events_no_pur (g : Gen) (company : String) (provDate : ℚ) :
    ∀ (count k boxes : Nat),
    purchasedTimestamps (later_prov_events g k company provDate count boxes).1
      = []
  | 0, k, boxes => rfl
  | n + 1, k, boxes => by
    dsimp only [later_prov_events]
    simp only [purchasedTimestamps, List.filter_cons, reduceCtorEq,
      decide_False, if_false, Bool.false_eq_true]
    exact later_prov_events_no_pur g company provDate n _ _

theorem purchasedTimestamps_append (l₁ l₂ : List CompanyEvent) :
    purchasedTimestamps (l₁ ++ l₂)
      = purchasedTimestamps l₁ ++ purchasedTimestamps l₂ := by
  simp [purchasedTimestamps, List.filter_append]

theorem purchasedTimestamps_cons (e : CompanyEvent) (l : List CompanyEvent) :
    purchasedTimestamps (e :: l)
      = (if e.type = .purchased then [e.timestamp] else [])
        ++ purchasedTimestamps l := by
  by_cases h : e.type = .purchased <;>
    simp [purchasedTimestamps, List.filter_cons, h]

theorem bound_ge_reg (reg d : ℚ) (M : Int) (hd : 0 ≤ d) (hM : 0 < M)
    (i : ℚ) (hi : 0 ≤ i) : reg ≤ reg + d * (i / (M : ℚ)) := by
  have hMq : (0 : ℚ) < (M : ℚ) := by exact_mod_cast hM
  nlinarith [mul_nonneg hd (div_nonneg hi hMq.le)]

theorem purchase_loop_purTs (g : Gen) (company : String) (reg now : ℚ)
    (purchases : Int) (hd : 0 ≤ now - reg) (hM : 0 < purchases) :
    ∀ (n i boxes k : Nat),
    List.Chain' (· ≤ ·)
      (purchasedTimestamps (purchase_loop g k company reg now purchases i n boxes).1)
    ∧ ∀ t ∈ purchasedTimestamps
        (purchase_loop g k company reg now purchases i n boxes).1,
        reg + (now - reg) * ((i : ℚ) / (purchases : ℚ)) ≤ t
  | 0, i, boxes, k => by
    constructor
    · simp [purchase_loop, purchasedTimestamps]
    · intro t ht
      simp [purchase_loop, purchasedTimestamps] at ht
  | n + 1, i, boxes, k => by
    have hMq : (0 : ℚ) < (purchases : ℚ) := by exact_mod_cast hM
    have hmono : reg + (now - reg) * ((i : ℚ) / (purchases : ℚ))
        ≤ reg + (now - reg) * (((i : ℚ) + 1) / (purchases : ℚ)) := by
      gcongr
      linarith
    dsimp only [purchase_loop]
    simp only [purchasedTimestamps_cons, reduceCtorEq, eq_self_iff_true,
      if_true, if_false, purchasedTimestamps_append,
      later_prov_events_no_pur, List.nil_append, List.singleton_append,
      List.cons_append]
    have hcast : ((i : ℚ) + 1) = (((i + 1 : Nat) : ℚ)) := by push_cast; ring
    constructor
    · refine List.chain'_cons'.mpr ⟨?_, (purchase_loop_purTs g company reg now
        purchases hd hM n (i + 1) _ _).1⟩
      intro y hy
      have hymem := List.mem_of_mem_head? hy
      have hb := (purchase_loop_purTs g company reg now purchases hd hM n
        (i + 1) _ _).2 y hymem
      refine le_trans ?_ hb
      rw [← hcast] at *
      exact hmono
    · intro t ht
      rcases List.mem_cons.mp ht with rfl | htail
      · exact le_refl _
      · have hb := (purchase_loop_purTs g company reg now purchases hd hM n
          (i + 1) _ _).2 t htail
        refine le_trans ?_ hb
        rw [← hcast] at *
        exact hmono

/-- The purchased-event timestamps of one company's build are
non-decreasing in generation order. -/
theorem build_company_events_purTs_chain (g : Gen) (k : Nat)
    (company : String) (reg now : ℚ) (h : reg ≤ now) :
    List.Chain' (· ≤ ·)
      (purchasedTimestamps (build_company_events g k company reg now).1) := by
  have hd : (0 : ℚ) ≤ now - reg := by linarith
  have hdays : 0 ≤ pytrunc ((now - reg) / 86400) :=
    pytrunc_nonneg (div_nonneg hd (by norm_num))
  have hmonths : 0 < pytrunc ((pytrunc ((now - reg) / 86400) : ℚ) / 30) + 1 := by
    have := pytrunc_nonneg (div_nonneg
      (by exact_mod_cast hdays : (0 : ℚ) ≤ (pytrunc ((now - reg) / 86400) : ℚ))
      (by norm_num : (0 : ℚ) ≤ 30))
    omega
  have hmult := randint_bounds g 1 2
    (initial_prov_events g (randint g 1 (randint g 1 15 k).1
      (randint g 2 14 (randint g 1 15 k).2).2).2 company
      (reg + 86400 * ((randint g 2 14 (randint g 1 15 k).2).1 : ℚ))
      (randint g 1 (randint g 1 15 k).1
        (randint g 2 14 (randint g 1 15 k).2).2).1.toNat 0).2 (by norm_num)
  dsimp only [build_company_events]
  simp only [purchasedTimestamps_cons, eq_self_iff_true, if_true,
    purchasedTimestamps_append, initial_prov_events_no_pur,
    List.nil_append, List.singleton_append, List.cons_append]
  have hM : 0 < (randint g 1 2 (initial_prov_events g
      (randint g 1 (randint g 1 15 k).1
        (randint g 2 14 (randint g 1 15 k).2).2).2 company
      (reg + 86400 * ((randint g 2 14 (randint g 1 15 k).2).1 : ℚ))
      (randint g 1 (randint g 1 15 k).1
        (randint g 2 14 (randint g 1 15 k).2).2).1.toNat 0).2).1
      * (pytrunc ((pytrunc ((now - reg) / 86400) : ℚ) / 30) + 1) := by
    have h1 := hmult.1
    nlinarith
  refine List.chain'_cons'.mpr ⟨?_, (purchase_loop_purTs g company reg now _
    hd hM _ 1 _ _).1⟩
  intro y hy
  have hymem := List.mem_of_mem_head? hy
  have hb := (purchase_loop_purTs g company reg now _ hd hM _ 1 _ _).2 y hymem
  exact le_trans (bound_ge_reg reg (now - reg) _ hd hM _ (by norm_num)) hb

theorem ticket_loop_chain (g : Gen) (email company : String)
    (numDrivers : Nat) (reg seconds : ℚ) (tickets : Int)
    (hq : 0 ≤ pytrunc (seconds / (tickets : ℚ) / (11 / 10 : ℚ))) :
    ∀ (n i k : Nat),
    List.Chain' (· ≤ ·)
      (((ticket_loop g k email company numDrivers reg seconds tickets i n).1).map
        (·.timestamp))
    ∧ ∀ t ∈ ((ticket_loop g k email company numDrivers reg seconds tickets
        i n).1).map (·.timestamp),
        reg + ((pytrunc (seconds / (tickets : ℚ) / (11 / 10 : ℚ))
          * (i : Int) : Int) : ℚ) ≤ t
  | 0, i, k => by
    constructor
    · simp [ticket_loop]
    · intro t ht
      simp [ticket_loop] at ht
  | n + 1, i, k => by
    have hmono : reg + ((pytrunc (seconds / (tickets : ℚ) / (11 / 10 : ℚ))
          * (i : Int) : Int) : ℚ)
        ≤ reg + ((pytrunc (seconds / (tickets : ℚ) / (11 / 10 : ℚ))
          * ((i + 1 : Nat) : Int) : Int) : ℚ) := by
      have h1 : pytrunc (seconds / (tickets : ℚ) / (11 / 10 : ℚ)) * (i : Int)
          ≤ pytrunc (seconds / (tickets : ℚ) / (11 / 10 : ℚ))
            * ((i + 1 : Nat) : Int) := by
        have hi : ((i : Int)) ≤ ((i + 1 : Nat) : Int) := by push_cast; omega
        exact Int.mul_le_mul_of_nonneg_left hi hq
      have h2 : ((pytrunc (seconds / (tickets : ℚ) / (11 / 10 : ℚ))
            * (i : Int) : Int) : ℚ)
          ≤ ((pytrunc (seconds / (tickets : ℚ) / (11 / 10 : ℚ))
            * ((i + 1 : Nat) : Int) : Int) : ℚ) := by exact_mod_cast h1
      linarith
    dsimp only [ticket_loop, blankEvent]
    simp only [List.map_cons]
    constructor
    · refine List.chain'_cons'.mpr ⟨?_, (ticket_loop_chain g email company
        numDrivers reg seconds tickets hq n (i + 1) _).1⟩
      intro y hy
      exact le_trans hmono ((ticket_loop_chain g email company numDrivers reg
        seconds tickets hq n (i + 1) _).2 y (List.mem_of_mem_head? hy))
    · intro t ht
      rcases List.mem_cons.mp ht with rfl | htail
      · exact le_refl _
      · exact le_trans hmono ((ticket_loop_chain g email company numDrivers
          reg seconds tickets hq n (i + 1) _).2 t htail)

/-- The support-ticket events of one user have non-decreasing timestamps
in generation order. -/
theorem generate_ticket_events_chain (g : Gen) (k : Nat)
    (email company : String) (numDrivers : Nat) (reg now : ℚ)
    (h : reg ≤ now) :
    List.Chain' (· ≤ ·)
      (((generate_ticket_events_user g k email company numDrivers reg
        now).1).map (·.timestamp)) := by
  dsimp only [generate_ticket_events_user]
  by_cases h0 : (pytrunc ((pytrunc ((now - reg) / 86400) : ℚ)
      / ((4 - (randint g 0 3 k).1 : Int) : ℚ) / 2)).toNat = 0
  · rw [h0]
    simp [ticket_loop]
  · have htpos : 0 < pytrunc ((pytrunc ((now - reg) / 86400) : ℚ)
        / ((4 - (randint g 0 3 k).1 : Int) : ℚ) / 2) := by omega
    have htq : (0 : ℚ) < ((pytrunc ((pytrunc ((now - reg) / 86400) : ℚ)
        / ((4 - (randint g 0 3 k).1 : Int) : ℚ) / 2) : Int) : ℚ) := by
      exact_mod_cast htpos
    have hq : 0 ≤ pytrunc ((now - reg) / ((pytrunc ((pytrunc ((now - reg)
        / 86400) : ℚ) / ((4 - (randint g 0 3 k).1 : Int) : ℚ) / 2) : Int) : ℚ)
        / (11 / 10 : ℚ)) :=
      pytrunc_nonneg (div_nonneg (div_nonneg (by linarith) htq.le)
        (by norm_num))
    exact (ticket_loop_chain g email company numDrivers reg (now - reg) _
      hq _ 0 _).1

/-- C2 (amended): with registration no later than the frozen clock, the
"purchased" events of a company's build have non-decreasing timestamps in
generation order (the interpolated fractions increase), and a user's
support-ticket events have non-decreasing timestamps in generation order;
by the counterexample, the full per-entity event streams do not — the
provisioning events and the call/load sub-events can go backwards. -/
theorem claim_C2_amended (g g' : Gen) (k k' : Nat) (company email : String)
    (numDrivers : Nat) (reg now : ℚ) (h : reg ≤ now) :
    List.Chain' (· ≤ ·)
      (purchasedTimestamps (build_company_events g k company reg now).1)
    ∧ List.Chain' (· ≤ ·)
      (((generate_ticket_events_user g' k' email company numDrivers reg
        now).1).map (·.timestamp)) :=
  ⟨build_company_events_purTs_chain g k company reg now h,
   generate_ticket_events_chain g' k' email company numDrivers reg now h⟩

/-- Witness for the amended C2 at `reg = now = 0` with the zero draw
stream. -/
theorem claim_C2_amended_witness :
    List.Chain' (· ≤ ·)
      (purchasedTimestamps (build_company_events gZero 0 "a" 0 0).1)
    ∧ List.Chain' (· ≤ ·)
      (((generate_ticket_events_user gZero 0 "u" "a" 3 0 0).1).map
        (·.timestamp)) :=
  claim_C2_amended gZero gZero 0 0 "a" "u" 3 0 0 le_rfl

/-! ## Claim C3 -/

/-- Every load event is immediately preceded by a call event dated exactly
one minute after it (checked pairwise along the list). -/
def loads_pair_calls : List UserEvent → Bool
  | a :: b :: rest =>
    (!(decide (b.type = .load))
      || (decide (a.type = .call) && decide (b.timestamp = a.timestamp - 60)))
      && loads_pair_calls (b :: rest)
  | _ => true

theorem lpc_cons_of (a : UserEvent) (l : List UserEvent)
    (h : loads_pair_calls l = true)
    (hhead : ∀ b, l.head? = some b → b.type = .load →
      a.type = .call ∧ b.timestamp = a.timestamp - 60) :
    loads_pair_calls (a :: l) = true := by
  cases l with
  | nil => rfl
  | cons b rest =>
    simp only [loads_pair_calls, Bool.and_eq_true, Bool.or_eq_true,
      Bool.not_eq_true', decide_eq_true_eq, decide_eq_false_iff_not]
    refine ⟨?_, by simpa using h⟩
    by_cases hb : b.type = .load
    · right
      obtain ⟨h1, h2⟩ := hhead b rfl hb
      exact ⟨by simpa using h1, by simpa using h2⟩
    · left
      exact hb

theorem lpc_append_of_no_load (l₁ l₂ : List UserEvent)
    (h1 : ∀ e ∈ l₁, e.type ≠ .load)
    (h2 : loads_pair_calls l₂ = true)
    (h2h : ∀ b, l₂.head? = some b → b.type ≠ .load) :
    loads_pair_calls (l₁ ++ l₂) = true := by
  induction l₁ with
  | nil => simpa using h2
  | cons a l₁ ih =>
    rw [List.cons_append]
    refine lpc_cons_of a (l₁ ++ l₂)
      (ih fun e he => h1 e (List.mem_cons_of_mem _ he)) ?_
    intro b hb hload
    exfalso
    cases l₁ with
    | nil =>
      simp only [List.nil_append] at hb
      exact h2h b hb hload
    | cons c l₁ =>
      simp only [List.cons_append, List.head?_cons, Option.some.injEq] at hb
      exact h1 c (List.mem_cons_of_mem _ (List.mem_cons_self _ _)) (hb ▸ hload)

/-- Structure of one call iteration's event group: the call event (with
the session id), its load event one minute earlier (no session id), then
rating/comment/dialin events with the stated sessions and timestamps. -/
theorem call_group_spec (email company : String) (osIdx : Nat) (now : ℚ)
    (ci : Nat) (d : CallDraws) :
    ∃ subs : List UserEvent,
      call_group email company osIdx now ci d
        = ({ blankEvent d.eventDate .call email company with
             call_duration := some d.callLength, call_type := some d.callType,
             call_num_users := some d.callUsers, call_os := some osIdx,
             session_id := some (now - seedEpoch, ci) } : UserEvent)
          :: blankEvent (d.eventDate - 60) .load email company :: subs
      ∧ (∀ e ∈ subs,
          e.timestamp = d.eventDate
          ∧ (e.type = .rating ∨ e.type = .comment ∨ e.type = .dialin)
          ∧ (e.type = .dialin → e.session_id = none)
          ∧ ((e.type = .rating ∨ e.type = .comment) →
              e.session_id = some (now - seedEpoch, ci)))
      ∧ subs.countP (fun (e : UserEvent) => decide (e.type = UEvType.rating)) ≤ 1
      ∧ subs.countP (fun (e : UserEvent) => decide (e.type = UEvType.comment)) ≤ 1
      ∧ subs.countP (fun (e : UserEvent) => decide (e.type = UEvType.dialin)) ≤ 1 := by
  refine ⟨_, rfl, ?_, ?_, ?_, ?_⟩
  · intro e he
    simp only [call_group, List.mem_append] at he
    rcases he with (he | he) | he
    · rcases hr : d.callRating with _ | r
      · simp only [hr] at he
        simp at he
      · simp only [hr] at he
        by_cases hz : r ≠ 0
        · rw [if_pos hz] at he
          simp only [List.mem_singleton] at he
          subst he
          exact ⟨rfl, Or.inl rfl, fun hh => by simp [blankEvent] at hh,
            fun _ => rfl⟩
        · rw [if_neg hz] at he
          simp at he
    · rcases hc : d.callComment with _ | c
      · simp only [hc] at he
        simp at he
      · simp only [hc] at he
        simp only [List.mem_singleton] at he
        subst he
        exact ⟨rfl, Or.inr (Or.inl rfl), fun hh => by simp [blankEvent] at hh,
          fun _ => rfl⟩
    · rcases hd : d.dialinLength with _ | l
      · simp only [hd] at he
        simp at he
      · simp only [hd] at he
        by_cases hz : l ≠ 0
        · rw [if_pos hz] at he
          simp only [List.mem_singleton] at he
          subst he
          refine ⟨rfl, Or.inr (Or.inr rfl), fun _ => rfl, ?_⟩
          intro hh
          rcases hh with hh | hh <;> simp [blankEvent] at hh
        · rw [if_neg hz] at he
          simp at he
  · simp only [call_group, List.countP_append]
    have h1 : (match d.callRating with
        | some r => if r ≠ 0 then
            [({ blankEvent d.eventDate .rating email company with
                rating := some r,
                session_id := some (now - seedEpoch, ci) } : UserEvent)]
          else []
        | none => ([] : List UserEvent)).countP (fun (e : UserEvent) => decide (e.type = UEvType.rating)) ≤ 1 := by
      rcases d.callRating with _ | r
      · simp
      · by_cases hz : r ≠ 0 <;> simp [hz, List.countP_cons, blankEvent]
    have h2 : (match d.callComment with
        | some c =>
          [({ blankEvent d.eventDate .comment email company with
              comment := some c,
              session_id := some (now - seedEpoch, ci) } : UserEvent)]
        | none => ([] : List UserEvent)).countP (fun (e : UserEvent) => decide (e.type = UEvType.rating)) = 0 := by
      rcases d.callComment with _ | c <;> simp [List.countP_cons, blankEvent]
    have h3 : (match d.dialinLength with
        | some l => if l ≠ 0 then
            [({ blankEvent d.eventDate .dialin email company with
                call_duration := some l } : UserEvent)]
          else []
        | none => ([] : List UserEvent)).countP (fun (e : UserEvent) => decide (e.type = UEvType.rating)) = 0 := by
      rcases d.dialinLength with _ | l
      · simp
      · by_cases hz : l ≠ 0 <;> simp [hz, List.countP_cons, blankEvent]
    exact le_of_le_of_eq (Nat.add_le_add (Nat.add_le_add h1 (Nat.le_of_eq h2)) (Nat.le_of_eq h3)) rfl
  · simp only [call_group, List.countP_append]
    have h1 : (match d.callRating with
        | some r => if r ≠ 0 then
            [({ blankEvent d.eventDate .rating email company with
                rating := some r,
                session_id := some (now - seedEpoch, ci) } : UserEvent)]
          else []
        | none => ([] : List UserEvent)).countP (fun (e : UserEvent) => decide (e.type = UEvType.comment)) = 0 := by
      rcases d.callRating with _ | r
      · simp
      · by_cases hz : r ≠ 0 <;> simp [hz, List.countP_cons, blankEvent]
    have h2 : (match d.callComment with
        | some c =>
          [({ blankEvent d.eventDate .comment email company with
              comment := some c,
              session_id := some (now - seedEpoch, ci) } : UserEvent)]
        | none => ([] : List UserEvent)).countP (fun (e : UserEvent) => decide (e.type = UEvType.comment)) ≤ 1 := by
      rcases d.callComment with _ | c <;> simp [List.countP_cons, blankEvent]
    have h3 : (match d.dialinLength with
        | some l => if l ≠ 0 then
            [({ blankEvent d.eventDate .dialin email company with
                call_duration := some l } : UserEvent)]
          else []
        | none => ([] : List UserEvent)).countP (fun (e : UserEvent) => decide (e.type = UEvType.comment)) = 0 := by
      rcases d.dialinLength with _ | l
      · simp
      · by_cases hz : l ≠ 0 <;> simp [hz, List.countP_cons, blankEvent]
    exact le_of_le_of_eq (Nat.add_le_add (Nat.add_le_add (Nat.le_of_eq h1) h2) (Nat.le_of_eq h3)) rfl
  · simp only [call_group, List.countP_append]
    have h1 : (match d.callRating with
        | some r => if r ≠ 0 then
            [({ blankEvent d.eventDate .rating email company with
                rating := some r,
                session_id := some (now - seedEpoch, ci) } : UserEvent)]
          else []
        | none => ([] : List UserEvent)).countP (fun (e : UserEvent) => decide (e.type = UEvType.dialin)) = 0 := by
      rcases d.callRating with _ | r
      · simp
      · by_cases hz : r ≠ 0 <;> simp [hz, List.countP_cons, blankEvent]
    have h2 : (match d.callComment with
        | some c =>
          [({ blankEvent d.eventDate .comment email company with
              comment := some c,
              session_id := some (now - seedEpoch, ci) } : UserEvent)]
        | none => ([] : List UserEvent)).countP (fun (e : UserEvent) => decide (e.type = UEvType.dialin)) = 0 := by
      rcases d.callComment with _ | c <;> simp [List.countP_cons, blankEvent]
    have h3 : (match d.dialinLength with
        | some l => if l ≠ 0 then
            [({ blankEvent d.eventDate .dialin email company with
                call_duration := some l } : UserEvent)]
          else []
        | none => ([] : List UserEvent)).countP (fun (e : UserEvent) => decide (e.type = UEvType.dialin)) ≤ 1 := by
      rcases d.dialinLength with _ | l
      · simp
      · by_cases hz : l ≠ 0 <;> simp [hz, List.countP_cons, blankEvent]
    exact le_of_le_of_eq (Nat.add_le_add (Nat.add_le_add (Nat.le_of_eq h1) (Nat.le_of_eq h2)) h3) rfl

/-- Abstract repackaging of `call_group_spec`: the group is a call event,
a load event 60 seconds earlier, then sub-events. -/
theorem call_group_parts (email company : String) (osIdx : Nat) (now : ℚ)
    (ci : Nat) (d : CallDraws) :
    ∃ (cEv lEv : UserEvent) (subs : List UserEvent),
      call_group email company osIdx now ci d = cEv :: lEv :: subs
      ∧ cEv.type = UEvType.call
      ∧ cEv.session_id = some (now - seedEpoch, ci)
      ∧ cEv.timestamp = d.eventDate
      ∧ lEv.type = UEvType.load
      ∧ lEv.session_id = none
      ∧ lEv.timestamp = cEv.timestamp - 60
      ∧ (∀ e ∈ subs,
          e.timestamp = d.eventDate
          ∧ (e.type = UEvType.rating ∨ e.type = UEvType.comment
              ∨ e.type = UEvType.dialin)
          ∧ (e.type = UEvType.dialin → e.session_id = none)
          ∧ ((e.type = UEvType.rating ∨ e.type = UEvType.comment) →
              e.session_id = some (now - seedEpoch, ci)))
      ∧ subs.countP (fun (e : UserEvent) => decide (e.type = UEvType.rating)) ≤ 1
      ∧ subs.countP (fun (e : UserEvent) => decide (e.type = UEvType.comment)) ≤ 1
      ∧ subs.countP (fun (e : UserEvent) => decide (e.type = UEvType.dialin)) ≤ 1 := by
  obtain ⟨subs, hgrp, hsub, h1, h2, h3⟩ :=
    call_group_spec email company osIdx now ci d
  exact ⟨_, _, subs, hgrp, rfl, rfl, rfl, rfl, rfl, rfl, hsub, h1, h2, h3⟩

/-- One unfolding step of the call loop. -/
theorem call_loop_succ (g : Gen) (k : Nat) (numGood numBad : Nat)
    (email company : String) (osIdx : Nat) (reg now seconds : ℚ)
    (calls : Int) (happy ratey commenty chatty : Int) (ci n : Nat) :
    call_loop g k numGood numBad email company osIdx reg now seconds calls
        happy ratey commenty chatty ci (n + 1)
      = (call_group email company osIdx now ci
            (call_draws g k numGood numBad reg now seconds calls happy ratey
              commenty chatty (ci + 1)).1
          ++ (call_loop g (call_draws g k numGood numBad reg now seconds calls
                happy ratey commenty chatty (ci + 1)).2 numGood numBad email
                company osIdx reg now seconds calls happy ratey commenty chatty
                (ci + 1) n).1,
         (call_loop g (call_draws g k numGood numBad reg now seconds calls
            happy ratey commenty chatty (ci + 1)).2 numGood numBad email
            company osIdx reg now seconds calls happy ratey commenty chatty
            (ci + 1) n).2) := by
  rcases hcd : call_draws g k numGood numBad reg now seconds calls happy
    ratey commenty chatty (ci + 1) with ⟨d, k1⟩
  rcases hrec : call_loop g k1 numGood numBad email company osIdx reg now
    seconds calls happy ratey commenty chatty (ci + 1) n with ⟨rest, k2⟩
  simp only [call_loop, hcd, hrec]

/-- Session/pairing structure of the call loop output: calls carry the
session ids `ci, ci+1, …` (one call per id), rating/comment events carry
the session id of their unique parent call and share its timestamp (at
most one rating and one comment per call), load and dialin events carry no
session id, and every load event immediately follows its call event, dated
60 seconds earlier. -/
theorem call_loop_sessions (g : Gen) (numGood numBad : Nat)
    (email company : String) (osIdx : Nat) (reg now seconds : ℚ)
    (calls : Int) (happy ratey commenty chatty : Int) (n : Nat) :
    ∀ (ci k : Nat) (L : List UserEvent) (k2 : Nat),
    call_loop g k numGood numBad email company osIdx reg now seconds calls
        happy ratey commenty chatty ci n = (L, k2) →
    (∀ e ∈ L, e.type = UEvType.call →
        ∃ j, ci ≤ j ∧ j < ci + n ∧ e.session_id = some (now - seedEpoch, j))
    ∧ (∀ j, L.countP (fun c => decide (c.type = UEvType.call)
          && decide (c.session_id = some (now - seedEpoch, j)))
        = if ci ≤ j ∧ j < ci + n then 1 else 0)
    ∧ (∀ e ∈ L, (e.type = UEvType.rating ∨ e.type = UEvType.comment) →
        ∃ j, ci ≤ j ∧ j < ci + n ∧ e.session_id = some (now - seedEpoch, j)
          ∧ ∀ c ∈ L, c.type = UEvType.call →
              c.session_id = some (now - seedEpoch, j) →
              c.timestamp = e.timestamp)
    ∧ (∀ e ∈ L, (e.type = UEvType.load ∨ e.type = UEvType.dialin) →
        e.session_id = none)
    ∧ (∀ j, L.countP (fun e => decide (e.type = UEvType.rating)
          && decide (e.session_id = some (now - seedEpoch, j)))
        ≤ if ci ≤ j then 1 else 0)
    ∧ (∀ j, L.countP (fun e => decide (e.type = UEvType.comment)
          && decide (e.session_id = some (now - seedEpoch, j)))
        ≤ if ci ≤ j then 1 else 0)
    ∧ loads_pair_calls L = true
    ∧ (∀ b, L.head? = some b → b.type = UEvType.call) := by
  induction n with
  | zero =>
    intro ci k L k2 hL
    simp only [call_loop] at hL
    injection hL with h1 h2
    subst h1
    refine ⟨?_, ?_, ?_, ?_, ?_, ?_, rfl, ?_⟩
    · intro e he; exact absurd he (List.not_mem_nil e)
    · intro j; rw [List.countP_nil, if_neg (by omega)]
    · intro e he; exact absurd he (List.not_mem_nil e)
    · intro e he; exact absurd he (List.not_mem_nil e)
    · intro j; rw [List.countP_nil]; exact Nat.zero_le _
    · intro j; rw [List.countP_nil]; exact Nat.zero_le _
    · intro b hb; simp at hb
  | succ n ih =>
    intro ci k L k2 hL
    rcases hcd : call_draws g k numGood numBad reg now seconds calls happy
      ratey commenty chatty (ci + 1) with ⟨d, k1⟩
    rcases hrec : call_loop g k1 numGood numBad email company osIdx reg now
      seconds calls happy ratey commenty chatty (ci + 1) n with ⟨rest, k2r⟩
    simp only [call_loop, hcd, hrec] at hL
    injection hL with h1 h2
    subst h1
    obtain ⟨A, B, C, D, E, F, G, H⟩ := ih (ci + 1) k1 rest k2r hrec
    obtain ⟨cEv, lEv, subs, hgrp, hct, hcs, hctime, hlt, hls, hltime, hsub,
      hcntr, hcntc, hcntd⟩ := call_group_parts email company osIdx now ci d
    rw [hgrp]
    simp only [List.cons_append]
    refine ⟨?_, ?_, ?_, ?_, ?_, ?_, ?_, ?_⟩
    · -- call sessions
      intro e he hcall
      simp only [List.mem_cons, List.mem_append] at he
      rcases he with rfl | rfl | he | he
      · exact ⟨ci, le_rfl, by omega, hcs⟩
      · rw [hlt] at hcall; exact absurd hcall (by decide)
      · obtain ⟨-, hty, -, -⟩ := hsub e he
        rcases hty with ht | ht | ht <;> rw [ht] at hcall <;>
          exact absurd hcall (by decide)
      · obtain ⟨j, hj1, hj2, hj3⟩ := A e he hcall
        exact ⟨j, by omega, by omega, hj3⟩
    · -- exactly one call per session id in range
      intro j
      have hsubs0 : List.countP (fun c => decide (c.type = UEvType.call)
          && decide (c.session_id = some (now - seedEpoch, j))) subs = 0 :=
        List.countP_eq_zero.mpr (by
          intro e he
          obtain ⟨-, hty, -, -⟩ := hsub e he
          rcases hty with ht | ht | ht <;> simp [ht])
      have hl0 : (decide (lEv.type = UEvType.call)
          && decide (lEv.session_id = some (now - seedEpoch, j))) = false := by
        simp [hlt]
      by_cases hj : j = ci
      · have hBrest := B j
        have hnotin : ¬(ci + 1 ≤ j ∧ j < ci + 1 + n) := by omega
        rw [if_neg hnotin] at hBrest
        simp only [List.countP_cons, List.countP_append, hsubs0, hBrest, hl0]
        have hin : ci ≤ j ∧ j < ci + (n + 1) := by omega
        rw [if_pos hin]
        simp [hct, hcs, hj]
      · have hc0 : (decide (cEv.type = UEvType.call)
            && decide (cEv.session_id = some (now - seedEpoch, j))) = false := by
          simp [hcs, Ne.symm hj]
        have hBrest := B j
        simp only [List.countP_cons, List.countP_append, hsubs0, hBrest,
          hl0, hc0]
        simp only [Bool.false_eq_true, if_false]
        split_ifs <;> omega
    · -- rating/comment events: unique parent call, equal timestamp
      intro e he hrc
      simp only [List.mem_cons, List.mem_append] at he
      rcases he with rfl | rfl | he | he
      · rcases hrc with h | h <;> rw [hct] at h <;> exact absurd h (by decide)
      · rcases hrc with h | h <;> rw [hlt] at h <;> exact absurd h (by decide)
      · obtain ⟨hts, -, -, hsess⟩ := hsub e he
        refine ⟨ci, le_rfl, by omega, hsess hrc, ?_⟩
        intro c hc hctype hcsess
        simp only [List.mem_cons, List.mem_append] at hc
        rcases hc with rfl | rfl | hc | hc
        · rw [hctime, hts]
        · rw [hlt] at hctype; exact absurd hctype (by decide)
        · obtain ⟨-, hty2, -, -⟩ := hsub c hc
          rcases hty2 with ht | ht | ht <;> rw [ht] at hctype <;>
            exact absurd hctype (by decide)
        · obtain ⟨j', hj'1, hj'2, hj'3⟩ := A c hc hctype
          rw [hcsess] at hj'3
          injection hj'3 with h
          injection h with h1 h4
          exfalso; omega
      · obtain ⟨j, hj1, hj2, hj3, hj4⟩ := C e he hrc
        refine ⟨j, by omega, by omega, hj3, ?_⟩
        intro c hc hctype hcsess
        simp only [List.mem_cons, List.mem_append] at hc
        rcases hc with rfl | rfl | hc | hc
        · rw [hcs] at hcsess
          injection hcsess with h
          injection h with h1 h4
          exfalso; omega
        · rw [hlt] at hctype; exact absurd hctype (by decide)
        · obtain ⟨-, hty2, -, -⟩ := hsub c hc
          rcases hty2 with ht | ht | ht <;> rw [ht] at hctype <;>
            exact absurd hctype (by decide)
        · exact hj4 c hc hctype hcsess
    · -- load/dialin events carry no session id
      intro e he hld
      simp only [List.mem_cons, List.mem_append] at he
      rcases he with rfl | rfl | he | he
      · rcases hld with h | h <;> rw [hct] at h <;> exact absurd h (by decide)
      · exact hls
      · obtain ⟨-, hty, hdia, -⟩ := hsub e he
        rcases hld with h | h
        · rcases hty with ht | ht | ht <;> rw [h] at ht <;>
            exact absurd ht (by decide)
        · exact hdia h
      · exact D e he hld
    · -- at most one rating per session id
      intro j
      have hc0 : (decide (cEv.type = UEvType.rating)
          && decide (cEv.session_id = some (now - seedEpoch, j))) = false := by
        simp [hct]
      have hl0 : (decide (lEv.type = UEvType.rating)
          && decide (lEv.session_id = some (now - seedEpoch, j))) = false := by
        simp [hlt]
      have hrest := E j
      by_cases hj : j = ci
      · have hnotle : ¬(ci + 1 ≤ j) := by omega
        rw [if_neg hnotle] at hrest
        have hr0 : List.countP (fun e => decide (e.type = UEvType.rating)
            && decide (e.session_id = some (now - seedEpoch, j))) rest = 0 :=
          Nat.le_zero.mp hrest
        have hsubs1 : List.countP (fun e => decide (e.type = UEvType.rating)
            && decide (e.session_id = some (now - seedEpoch, j))) subs ≤ 1 :=
          le_trans (List.countP_mono_left (fun e he hp => by
            simp only [Bool.and_eq_true] at hp
            exact hp.1)) hcntr
        simp only [List.countP_cons, List.countP_append, hr0, hc0, hl0]
        simp only [Bool.false_eq_true, if_false, Nat.add_zero]
        have hin : ci ≤ j := by omega
        rw [if_pos hin]
        exact hsubs1
      · have hs0 : List.countP (fun e => decide (e.type = UEvType.rating)
            && decide (e.session_id = some (now - seedEpoch, j))) subs = 0 :=
          List.countP_eq_zero.mpr (by
            intro e he
            obtain ⟨-, hty, -, hsess⟩ := hsub e he
            rcases hty with ht | ht | ht
            · simp [ht, hsess (Or.inl ht), Ne.symm hj]
            · simp [ht]
            · simp [ht])
        simp only [List.countP_cons, List.countP_append, hs0, hc0, hl0]
        simp only [Bool.false_eq_true, if_false, Nat.add_zero, Nat.zero_add]
        refine le_trans hrest ?_
        split_ifs <;> omega
    · -- at most one comment per session id
      intro j
      have hc0 : (decide (cEv.type = UEvType.comment)
          && decide (cEv.session_id = some (now - seedEpoch, j))) = false := by
        simp [hct]
      have hl0 : (decide (lEv.type = UEvType.comment)
          && decide (lEv.session_id = some (now - seedEpoch, j))) = false := by
        simp [hlt]
      have hrest := F j
      by_cases hj : j = ci
      · have hnotle : ¬(ci + 1 ≤ j) := by omega
        rw [if_neg hnotle] at hrest
        have hr0 : List.countP (fun e => decide (e.type = UEvType.comment)
            && decide (e.session_id = some (now - seedEpoch, j))) rest = 0 :=
          Nat.le_zero.mp hrest
        have hsubs1 : List.countP (fun e => decide (e.type = UEvType.comment)
            && decide (e.session_id = some (now - seedEpoch, j))) subs ≤ 1 :=
          le_trans (List.countP_mono_left (fun e he hp => by
            simp only [Bool.and_eq_true] at hp
            exact hp.1)) hcntc
        simp only [List.countP_cons, List.countP_append, hr0, hc0, hl0]
        simp only [Bool.false_eq_true, if_false, Nat.add_zero]
        have hin : ci ≤ j := by omega
        rw [if_pos hin]
        exact hsubs1
      · have hs0 : List.countP (fun e => decide (e.type = UEvType.comment)
            && decide (e.session_id = some (now - seedEpoch, j))) subs = 0 :=
          List.countP_eq_zero.mpr (by
            intro e he
            obtain ⟨-, hty, -, hsess⟩ := hsub e he
            rcases hty with ht | ht | ht
            · simp [ht]
            · simp [ht, hsess (Or.inr ht), Ne.symm hj]
            · simp [ht])
        simp only [List.countP_cons, List.countP_append, hs0, hc0, hl0]
        simp only [Bool.false_eq_true, if_false, Nat.add_zero, Nat.zero_add]
        refine le_trans hrest ?_
        split_ifs <;> omega
    · -- load events pair with the preceding call
      refine lpc_cons_of cEv _ (lpc_cons_of lEv _ ?_ ?_) ?_
      · refine lpc_append_of_no_load subs rest ?_ G ?_
        · intro e he
          obtain ⟨-, hty, -, -⟩ := hsub e he
          rcases hty with ht | ht | ht <;> simp [ht]
        · intro b hb
          rw [H b hb]; decide
      · intro b hb hload
        exfalso
        cases subs with
        | nil =>
          simp only [List.nil_append] at hb
          rw [H b hb] at hload
          exact absurd hload (by decide)
        | cons s subs' =>
          simp only [List.cons_append, List.head?_cons, Option.some.injEq] at hb
          subst hb
          obtain ⟨-, hty, -, -⟩ := hsub s (List.mem_cons_self _ _)
          rcases hty with ht | ht | ht <;> rw [ht] at hload <;>
            exact absurd hload (by decide)
      · intro b hb hload
        simp only [List.head?_cons, Option.some.injEq] at hb
        subst hb
        exact ⟨hct, hltime⟩
    · -- the list starts with a call event
      intro b hb
      simp only [List.head?_cons, Option.some.injEq] at hb
      subst hb
      exact hct

/-- `_generate_call_events` unfolded to its main loop. -/
theorem generate_call_events_unfold (g : Gen) (k : Nat)
    (email company : String) (numOs numGood numBad : Nat) (reg now : ℚ) :
    generate_call_events_user g k email company numOs numGood numBad reg now
      = call_loop g (k + 1 + 1 + 1 + 1 + 1 + 1) numGood numBad email company
          ((choice g numOs k).1) reg now (now - reg)
          (pytrunc (((pytrunc ((now - reg) / 86400) : Int) : ℚ)
            / ((11 - (randint g 1 10 (k + 1)).1 : Int) : ℚ) * 10))
          ((randint g 0 2 (k + 1 + 1)).1) ((randint g 0 2 (k + 1 + 1 + 1)).1)
          ((randint g 0 2 (k + 1 + 1 + 1 + 1)).1)
          ((randint g 0 4 (k + 1 + 1 + 1 + 1 + 1)).1) 0
          (pytrunc (((pytrunc ((now - reg) / 86400) : Int) : ℚ)
            / ((11 - (randint g 1 10 (k + 1)).1 : Int) : ℚ) * 10)).toNat := rfl

/-- With a positive iteration count, the call loop emits a load event that
carries no session id. -/
theorem call_loop_has_load (g : Gen) (k : Nat) (numGood numBad : Nat)
    (email company : String) (osIdx : Nat) (reg now seconds : ℚ)
    (calls : Int) (happy ratey commenty chatty : Int) (ci : Nat)
    (n : Nat) (hn : 0 < n) :
    ∃ e ∈ (call_loop g k numGood numBad email company osIdx reg now seconds
        calls happy ratey commenty chatty ci n).1,
      e.type = UEvType.load ∧ e.session_id = none := by
  match n, hn with
  | n + 1, _ =>
    rcases hcd : call_draws g k numGood numBad reg now seconds calls happy
      ratey commenty chatty (ci + 1) with ⟨d, k1⟩
    rcases hrec : call_loop g k1 numGood numBad email company osIdx reg now
      seconds calls happy ratey commenty chatty (ci + 1) n with ⟨rest, k2⟩
    obtain ⟨cEv, lEv, subs, hgrp, hct, hcs, hctime, hlt, hls, hltime, -, -,
      -, -⟩ := call_group_parts email company osIdx now ci d
    refine ⟨lEv, ?_, hlt, hls⟩
    simp [call_loop, hcd, hrec, hgrp]

/-- C3 (amended): in a user's call-generator output, every rating and
comment event carries a session id matching exactly one call event and has
that call's timestamp, and at most one rating and one comment exist per
session id (no orphan sub-events); every load event immediately follows
its call event with a timestamp exactly 60 seconds (1 minute) earlier; but
load and dialin events carry NO session id (`session_id` is only set on
call, rating and comment rows), contrary to the claim. -/
theorem claim_C3_amended (g : Gen) (k : Nat) (email company : String)
    (numOs numGood numBad : Nat) (reg now : ℚ) :
    (∀ e ∈ (generate_call_events_user g k email company numOs numGood numBad
        reg now).1,
      (e.type = UEvType.rating ∨ e.type = UEvType.comment) →
      ∃ s : ℚ × Nat, e.session_id = some s
        ∧ ((generate_call_events_user g k email company numOs numGood numBad
            reg now).1).countP
            (fun c => decide (c.type = UEvType.call)
              && decide (c.session_id = some s)) = 1
        ∧ ∀ c ∈ (generate_call_events_user g k email company numOs numGood
            numBad reg now).1,
            c.type = UEvType.call → c.session_id = some s →
            c.timestamp = e.timestamp)
    ∧ (∀ s : ℚ × Nat,
        ((generate_call_events_user g k email company numOs numGood numBad
            reg now).1).countP
          (fun e => decide (e.type = UEvType.rating)
            && decide (e.session_id = some s)) ≤ 1
        ∧ ((generate_call_events_user g k email company numOs numGood numBad
            reg now).1).countP
          (fun e => decide (e.type = UEvType.comment)
            && decide (e.session_id = some s)) ≤ 1)
    ∧ (∀ e ∈ (generate_call_events_user g k email company numOs numGood
        numBad reg now).1,
        (e.type = UEvType.load ∨ e.type = UEvType.dialin) →
        e.session_id = none)
    ∧ loads_pair_calls (generate_call_events_user g k email company numOs
        numGood numBad reg now).1 = true := by
  rw [generate_call_events_unfold]
  rcases hL : call_loop g (k + 1 + 1 + 1 + 1 + 1 + 1) numGood numBad email
      company ((choice g numOs k).1) reg now (now - reg)
      (pytrunc (((pytrunc ((now - reg) / 86400) : Int) : ℚ)
        / ((11 - (randint g 1 10 (k + 1)).1 : Int) : ℚ) * 10))
      ((randint g 0 2 (k + 1 + 1)).1) ((randint g 0 2 (k + 1 + 1 + 1)).1)
      ((randint g 0 2 (k + 1 + 1 + 1 + 1)).1)
      ((randint g 0 4 (k + 1 + 1 + 1 + 1 + 1)).1) 0
      (pytrunc (((pytrunc ((now - reg) / 86400) : Int) : ℚ)
        / ((11 - (randint g 1 10 (k + 1)).1 : Int) : ℚ) * 10)).toNat
    with ⟨L, k2⟩
  obtain ⟨A, B, C, D, E, F, G, H⟩ := call_loop_sessions g numGood numBad
    email company ((choice g numOs k).1) reg now (now - reg)
    (pytrunc (((pytrunc ((now - reg) / 86400) : Int) : ℚ)
      / ((11 - (randint g 1 10 (k + 1)).1 : Int) : ℚ) * 10))
    ((randint g 0 2 (k + 1 + 1)).1) ((randint g 0 2 (k + 1 + 1 + 1)).1)
    ((randint g 0 2 (k + 1 + 1 + 1 + 1)).1)
    ((randint g 0 4 (k + 1 + 1 + 1 + 1 + 1)).1)
    (pytrunc (((pytrunc ((now - reg) / 86400) : Int) : ℚ)
      / ((11 - (randint g 1 10 (k + 1)).1 : Int) : ℚ) * 10)).toNat
    0 (k + 1 + 1 + 1 + 1 + 1 + 1) L k2 hL
  simp only [hL]
  refine ⟨?_, ?_, D, G⟩
  · intro e he hrc
    obtain ⟨j, hj1, hj2, hj3, hj4⟩ := C e he hrc
    refine ⟨(now - seedEpoch, j), hj3, ?_, hj4⟩
    have hB := B j
    rw [if_pos ⟨by omega, by omega⟩] at hB
    exact hB
  · intro s
    obtain ⟨q, j⟩ := s
    by_cases hq : q = now - seedEpoch
    · subst hq
      constructor
      · have hE := E j
        rw [if_pos (Nat.zero_le j)] at hE
        exact hE
      · have hF := F j
        rw [if_pos (Nat.zero_le j)] at hF
        exact hF
    · constructor
      · have h0 : L.countP (fun e => decide (e.type = UEvType.rating)
            && decide (e.session_id = some (q, j))) = 0 :=
          List.countP_eq_zero.mpr (by
            intro e he hp
            simp only [Bool.and_eq_true, decide_eq_true_eq] at hp
            obtain ⟨hty, hsess⟩ := hp
            obtain ⟨j2, -, -, hj3, -⟩ := C e he (Or.inl hty)
            rw [hj3] at hsess
            injection hsess with h
            injection h with h1 h4
            exact hq h1.symm)
        rw [h0]
        exact Nat.zero_le 1
      · have h0 : L.countP (fun e => decide (e.type = UEvType.comment)
            && decide (e.session_id = some (q, j))) = 0 :=
          List.countP_eq_zero.mpr (by
            intro e he hp
            simp only [Bool.and_eq_true, decide_eq_true_eq] at hp
            obtain ⟨hty, hsess⟩ := hp
            obtain ⟨j2, -, -, hj3, -⟩ := C e he (Or.inr hty)
            rw [hj3] at hsess
            injection hsess with h
            injection h with h1 h4
            exact hq h1.symm)
        rw [h0]
        exact Nat.zero_le 1

/-- Draw stream for the C3 counterexample: the rating-score and
comment-score draws are 1 (so no rating and no comment are produced); all
other draws are 0 (one call, jitter -1000). -/
def gC3 : Gen := fun n => if n = 7 then 1 else if n = 8 then 1 else 0

/-- C3 counterexample: in a concrete one-call run, the load sub-event
(and likewise any dialin sub-event) carries no session identifier at all
(`session_id` is `None` in the code), so it cannot equal any call event's
session identifier. -/
theorem claim_C3_counterexample :
    ¬ (∀ e ∈ (generate_call_events_user gC3 0 "u" "co" 5 5 5 0 86400).1,
        (e.type = UEvType.load ∨ e.type = UEvType.rating
          ∨ e.type = UEvType.comment ∨ e.type = UEvType.dialin) →
        ∃ s : ℚ × Nat, e.session_id = some s) := by
  intro hall
  rw [generate_call_events_unfold] at hall
  obtain ⟨e, he, hty, hsess⟩ := call_loop_has_load gC3
    (0 + 1 + 1 + 1 + 1 + 1 + 1) 5 5 "u" "co" ((choice gC3 5 0).1) 0 86400
    (86400 - 0)
    (pytrunc (((pytrunc (((86400 : ℚ) - 0) / 86400) : Int) : ℚ)
      / ((11 - (randint gC3 1 10 (0 + 1)).1 : Int) : ℚ) * 10))
    ((randint gC3 0 2 (0 + 1 + 1)).1) ((randint gC3 0 2 (0 + 1 + 1 + 1)).1)
    ((randint gC3 0 2 (0 + 1 + 1 + 1 + 1)).1)
    ((randint gC3 0 4 (0 + 1 + 1 + 1 + 1 + 1)).1) 0
    (pytrunc (((pytrunc (((86400 : ℚ) - 0) / 86400) : Int) : ℚ)
      / ((11 - (randint gC3 1 10 (0 + 1)).1 : Int) : ℚ) * 10)).toNat
    (by norm_num [randint, gC3, pytrunc, Rat.floor_def'])
  obtain ⟨s, hs⟩ := hall e he (Or.inl hty)
  rw [hsess] at hs
  exact Option.noConfusion hs

end DemoDash
